import Mathlib

/-!
# MongoGorilla: the books service of `main.go`

A shallow embedding of the four request handlers of `main.go` (`GetBook`,
`PostBook`, `UpdateBook`, `DeleteBook`), of the two record types `Book` and
`Publisher` with their struct tags exactly as written in the source, and of
the route table registered in `main`.

The handlers call into libraries that are not part of the repository.  Each
library routine the handlers depend on is modelled by a definition whose doc
comment names the routine:

* `reflect.StructTag.Lookup`, which both encoders use to read struct tags;
* `encoding/json` (`Unmarshal` into a `Book`, `Marshal` of a `Book`);
* `gopkg.in/mgo.v2/bson` (`ObjectIdHex`, the struct encoder and decoder);
* the `mgo` collection calls `Find(..).One`, `Insert`, `Update`, `Remove`,
  as an abstract `Backend` and as a concrete in-memory MongoDB collection;
* `net/http`'s `ResponseWriter` and the `gorilla/mux` route matcher.

Request bodies, the string fields of a record and object identifiers are Go
strings, that is byte sequences; path variables, struct tags, field names and
error messages are text.  What `bson.NewObjectId()` returns and what the
server picks as `_id` for a document that has none are inputs of the model.
-/

namespace MongoGorilla

/-! ## Bytes, hexadecimal text and object identifiers -/

/-- One byte. -/
abbrev Byte := Fin 256

/-- `bson.ObjectId` is declared `type ObjectId string`: a Go string holding raw
bytes.  A well-formed identifier has twelve of them, but the type does not
enforce it, and the zero value is empty. -/
abbrev ObjectId := List Byte

/-- A Go `string`: a sequence of bytes, not necessarily valid UTF-8. -/
abbrev GoString := List Byte

/-- The UTF-8 encoding of one character (`utf8.EncodeRune`). -/
def encodeRune (c : Char) : List Byte :=
  let n := c.toNat
  if n < 0x80 then [Fin.ofNat n]
  else if n < 0x800 then [Fin.ofNat (0xC0 + n / 64), Fin.ofNat (0x80 + n % 64)]
  else if n < 0x10000 then
    [Fin.ofNat (0xE0 + n / 4096), Fin.ofNat (0x80 + n / 64 % 64), Fin.ofNat (0x80 + n % 64)]
  else
    [Fin.ofNat (0xF0 + n / 262144), Fin.ofNat (0x80 + n / 4096 % 64),
     Fin.ofNat (0x80 + n / 64 % 64), Fin.ofNat (0x80 + n % 64)]

/-- A text as the Go string that holds its UTF-8 encoding. -/
def utf8 (s : String) : GoString := s.toList.flatMap encodeRune

instance : Coe String GoString := ⟨utf8⟩

/-- A byte seen as the character with that code. -/
def byteChar (b : Byte) : Char := Char.ofNat b.val

/-- A character below 256 seen as a byte. -/
def ch (c : Char) : Byte := Fin.ofNat c.toNat

/-- The lower-case hexadecimal digit of a value below sixteen. -/
def hexDigit (n : Nat) : Char :=
  if n < 10 then Char.ofNat (48 + n) else Char.ofNat (87 + n)

/-- Value of one hexadecimal digit, either case (`encoding/hex.fromHexChar`). -/
def fromHexChar (c : Char) : Option Nat :=
  if '0' ≤ c ∧ c ≤ '9' then some (c.toNat - 48)
  else if 'a' ≤ c ∧ c ≤ 'f' then some (c.toNat - 87)
  else if 'A' ≤ c ∧ c ≤ 'F' then some (c.toNat - 55)
  else none

/-- The function `encoding/hex.EncodeToString`, two lower-case digits per byte. -/
def hexEncode : List Byte → List Char
  | [] => []
  | b :: bs => hexDigit (b.val / 16) :: hexDigit (b.val % 16) :: hexEncode bs

/-- The function `encoding/hex.DecodeString`: fails on an odd number of digits
and on any character that is not a hexadecimal digit. -/
def hexDecode : List Char → Option (List Byte)
  | [] => some []
  | [_] => none
  | a :: b :: rest =>
    match fromHexChar a, fromHexChar b, hexDecode rest with
    | some hi, some lo, some bs => some (Fin.ofNat (hi * 16 + lo) :: bs)
    | _, _, _ => none

/-- The method `bson.ObjectId.Hex`. -/
def ObjectId.Hex (id : ObjectId) : String := String.mk (hexEncode id)

/-- The function `bson.IsObjectIdHex`: the text decodes to exactly twelve bytes. -/
def IsObjectIdHex (s : String) : Bool :=
  match hexDecode s.toList with
  | some d => d.length == 12
  | none => false

/-- A Go panic raised while a handler runs. -/
inductive Panic where
  /-- `bson.ObjectIdHex` was called on text that is not 24 hexadecimal digits:
  `panic(fmt.Sprintf("invalid input to ObjectIdHex: %q", s))`. -/
  | invalidObjectIdHex (s : String)
  deriving DecidableEq, Repr

/-- The function `bson.ObjectIdHex`.  It has no error result: on input that
does not decode to twelve bytes it panics. -/
def ObjectIdHex (s : String) : Except Panic ObjectId :=
  match hexDecode s.toList with
  | some d => if d.length = 12 then .ok d else .error (.invalidObjectIdHex s)
  | none => .error (.invalidObjectIdHex s)

/-! ## Struct tags -/

/-- Leading blanks of a tag are skipped. -/
def dropSpaces : List Char → List Char
  | ' ' :: cs => dropSpaces cs
  | cs => cs

/-- A character that may occur in a tag key: above the blank, not a colon, not
a double quote, not DEL. -/
def isTagKeyChar (c : Char) : Bool :=
  decide (' ' < c) && c != ':' && c != '"' && c != Char.ofNat 127

/-- Scan of the quoted value of a tag pair.  The input starts right after the
opening quote; the result is the text up to the closing quote (escapes kept
as written) and what follows the closing quote, or `none` when the quote is
never closed. -/
def scanQuoted : List Char → Option (List Char × List Char)
  | [] => none
  | '"' :: rest => some ([], rest)
  | '\\' :: c :: rest =>
    match scanQuoted rest with
    | some (v, r) => some ('\\' :: c :: v, r)
    | none => none
  | c :: rest =>
    match scanQuoted rest with
    | some (v, r) => some (c :: v, r)
    | none => none

/-- The function `strconv.Unquote` on the inside of a double-quoted tag value.
The single-character escapes are decoded; a numeric escape (octal, `\x`, `\u`,
`\U`) or a raw newline is reported as an error, which is what `Unquote` does
for a raw newline and is a restriction of this model for numeric escapes. -/
def unquoteTag : List Char → Option (List Char)
  | [] => some []
  | '\n' :: _ => none
  | '\\' :: c :: rest =>
    let d : Option Char :=
      if c = 'a' then some (Char.ofNat 7) else if c = 'b' then some (Char.ofNat 8)
      else if c = 'f' then some (Char.ofNat 12) else if c = 'n' then some '\n'
      else if c = 'r' then some '\r' else if c = 't' then some '\t'
      else if c = 'v' then some (Char.ofNat 11) else if c = '\\' then some '\\'
      else if c = '"' then some '"' else none
    match d, unquoteTag rest with
    | some x, some r => some (x :: r)
    | _, _ => none
  | ['\\'] => none
  | c :: rest =>
    match unquoteTag rest with
    | some r => some (c :: r)
    | none => none

/-- The loop of `reflect.StructTag.Lookup`, one `key:"value"` pair per turn:
leading blanks are skipped, the key is scanned up to a colon, and the loop
goes on only if the key is not empty and the colon is immediately followed by
a double quote (`if i == 0 || i+1 >= len(tag) || tag[i] != ':' || tag[i+1] !=
'"' { break }`).  At the first text that is not of that shape the loop stops
and the key asked for is reported absent, also when a well-formed pair for it
stands further on in the tag.  Every turn consumes at least four characters,
so the length of the tag is fuel enough. -/
def lookupLoop : Nat → List Char → List Char → Option (List Char)
  | 0, _, _ => none
  | fuel + 1, tag, key =>
    let tag := dropSpaces tag
    if tag = [] then none
    else
      let name := tag.takeWhile isTagKeyChar
      match tag.dropWhile isTagKeyChar with
      | ':' :: '"' :: rest =>
        if name = [] then none
        else
          match scanQuoted rest with
          | none => none
          | some (qvalue, tag') =>
            if key = name then unquoteTag qvalue
            else lookupLoop fuel tag' key
      | _ => none

/-- The method `reflect.StructTag.Lookup`. -/
def StructTag.Lookup (tag : String) (key : String) : Option String :=
  (lookupLoop (tag.length + 1) tag.toList key.toList).map String.mk

/-- The method `reflect.StructTag.Get`: the empty string when the key is absent. -/
def StructTag.Get (tag : String) (key : String) : String :=
  (StructTag.Lookup tag key).getD ""

/-- A field of a struct type as reflection presents it: its Go name and its
tag, both as written in the source. -/
structure StructField where
  Name : String
  Tag : String
  deriving DecidableEq, Repr

/-- A field is exported when its name starts with an upper-case letter. -/
def StructField.exported (f : StructField) : Bool :=
  match f.Name.toList with
  | c :: _ => c.isUpper
  | [] => false


/-! ## JSON text: the scanner of `encoding/json` -/

/-- A lexical token of JSON text.  String tokens keep the bytes between the
quotes as written, escapes included; number tokens keep their spelling. -/
inductive Token where
  | lbrace | rbrace | lbrack | rbrack | colon | comma
  | str (raw : List Byte)
  | num (lit : List Char)
  | lit (name : List Char)
  deriving DecidableEq, Repr

/-- What the lexer is in the middle of. -/
inductive LexMode where
  /-- Between tokens. -/
  | idle
  /-- Inside a string; the bytes so far, reversed. -/
  | inStr (acc : List Byte)
  /-- Inside a string, right after a backslash. -/
  | inEsc (acc : List Byte)
  /-- Inside a `\u` escape with `n` hexadecimal digits still to come. -/
  | inHex (acc : List Byte) (n : Nat)
  /-- Inside a run of number characters; the run so far, reversed. -/
  | inNum (acc : List Char)
  /-- Inside a run of letters; the run so far, reversed. -/
  | inWord (acc : List Char)
  deriving DecidableEq, Repr

/-- The four blanks JSON allows between tokens. -/
def isJSONSpace (c : Char) : Bool := c = ' ' || c = '\t' || c = '\r' || c = '\n'

/-- Characters a number literal is made of. -/
def isNumChar (c : Char) : Bool :=
  c.isDigit || c = '-' || c = '+' || c = '.' || c = 'e' || c = 'E'

/-- A hexadecimal digit. -/
def isHexChar (c : Char) : Bool := (fromHexChar c).isSome

/-- One or more decimal digits and nothing else. -/
def digits1 (cs : List Char) : Bool := !cs.isEmpty && cs.all Char.isDigit

/-- The exponent part of a number, or nothing. -/
def validExp : List Char → Bool
  | [] => true
  | e :: r =>
    if e = 'e' ∨ e = 'E' then
      match r with
      | '+' :: r' => digits1 r'
      | '-' :: r' => digits1 r'
      | r' => digits1 r'
    else false

/-- The fraction part of a number, or nothing, then the exponent part. -/
def validFrac : List Char → Bool
  | '.' :: d :: r => if d.isDigit then validExp (r.dropWhile Char.isDigit) else false
  | r => validExp r

/-- The number grammar of JSON: an optional minus sign, `0` or a digit string
without leading zero, an optional fraction, an optional exponent. -/
def validNumber (cs : List Char) : Bool :=
  let body := match cs with
    | '-' :: r => r
    | r => r
  match body with
  | '0' :: r => validFrac r
  | c :: r => if '1' ≤ c ∧ c ≤ '9' then validFrac (r.dropWhile Char.isDigit) else false
  | [] => false

/-- A finished run of letters is one of the three literals. -/
def wordToken (w : List Char) : Option Token :=
  if w = "true".toList ∨ w = "false".toList ∨ w = "null".toList then some (.lit w) else none

/-- The lexer between tokens, looking at one byte: the tokens it emits and the
mode it moves to.  A byte above the ASCII range is an error here. -/
def lexIdle (b : Byte) : Option (List Token × LexMode) :=
  let c := byteChar b
  if isJSONSpace c then some ([], .idle)
  else if c = '\x7b' then some ([.lbrace], .idle)
  else if c = '\x7d' then some ([.rbrace], .idle)
  else if c = '[' then some ([.lbrack], .idle)
  else if c = ']' then some ([.rbrack], .idle)
  else if c = ':' then some ([.colon], .idle)
  else if c = ',' then some ([.comma], .idle)
  else if c = '"' then some ([], .inStr [])
  else if c = '-' ∨ c.isDigit then some ([], .inNum [c])
  else if c.isLower then some ([], .inWord [c])
  else none

/-- One step of the lexer.  Inside a string every byte from 32 up is taken as
it comes, whether or not it is part of well-formed UTF-8. -/
def lexStep (m : LexMode) (b : Byte) : Option (List Token × LexMode) :=
  let c := byteChar b
  match m with
  | .idle => lexIdle b
  | .inStr acc =>
    if c = '"' then some ([.str acc.reverse], .idle)
    else if c = '\\' then some ([], .inEsc (b :: acc))
    else if b.val < 32 then none
    else some ([], .inStr (b :: acc))
  | .inEsc acc =>
    if c = 'u' then some ([], .inHex (b :: acc) 4)
    else if c = '"' ∨ c = '\\' ∨ c = '/' ∨ c = 'b' ∨ c = 'f' ∨ c = 'n' ∨ c = 'r' ∨ c = 't' then
      some ([], .inStr (b :: acc))
    else none
  | .inHex acc n =>
    if isHexChar c then
      (if n ≤ 1 then some ([], .inStr (b :: acc)) else some ([], .inHex (b :: acc) (n - 1)))
    else none
  | .inNum acc =>
    if isNumChar c then some ([], .inNum (c :: acc))
    else if validNumber acc.reverse then
      (lexIdle b).map (fun r => (.num acc.reverse :: r.1, r.2))
    else none
  | .inWord acc =>
    if c.isLower then some ([], .inWord (c :: acc))
    else
      match wordToken acc.reverse with
      | some t => (lexIdle b).map (fun r => (t :: r.1, r.2))
      | none => none

/-- The lexer loop: `out` holds the tokens found so far, reversed. -/
def lexLoop : LexMode → List Token → List Byte → Option (List Token)
  | .idle, out, [] => some out.reverse
  | .inNum acc, out, [] =>
    if validNumber acc.reverse then some (.num acc.reverse :: out).reverse else none
  | .inWord acc, out, [] => (wordToken acc.reverse).map (fun t => (t :: out).reverse)
  | _, _, [] => none
  | m, out, b :: bs =>
    match lexStep m b with
    | none => none
    | some (ts, m') => lexLoop m' (ts.reverse ++ out) bs

/-- The lexer: the tokens of an input, or `none` on a lexical error (a raw
control character in a string, a bad escape, a malformed number, a stray
byte, an unterminated string). -/
def lex (data : List Byte) : Option (List Token) := lexLoop .idle [] data

/-- A parsed JSON value.  Strings and member names are kept as written between
their quotes: the decoder unquotes them when it stores them. -/
inductive JNode where
  | null
  | bool (b : Bool)
  | number (lit : List Char)
  | string (raw : List Byte)
  | array (items : List JNode)
  | object (members : List (List Byte × JNode))

/-- An open container on the parser's stack, contents reversed. -/
inductive Frame where
  | inArr (items : List JNode)
  | inObj (members : List (List Byte × JNode)) (key : List Byte)

/-- What the parser expects next. -/
inductive Expect where
  /-- A value. -/
  | value
  /-- A value or the closing bracket, right after `[`. -/
  | valueOrClose
  /-- A member name or the closing brace, right after the opening brace. -/
  | keyOrClose (members : List (List Byte × JNode))
  /-- A member name, after a comma in an object. -/
  | key (members : List (List Byte × JNode))
  /-- The colon after a member name. -/
  | colon (members : List (List Byte × JNode)) (key : List Byte)
  /-- A comma or the closing bracket or brace of the innermost container. -/
  | commaOrClose
  /-- Nothing: the top-level value is complete. -/
  | done (v : JNode)

/-- The constant `maxNestingDepth` of the scanner: opening an array or object
inside this many open ones is the syntax error "exceeded max depth". -/
def maxNestingDepth : Nat := 10000

/-- A completed value goes into the innermost open container, or is the result. -/
def deliver (v : JNode) : List Frame → List Frame × Expect
  | [] => ([], .done v)
  | .inArr items :: st => (.inArr (v :: items) :: st, .commaOrClose)
  | .inObj ms k :: st => (.inObj ((k, v) :: ms) k :: st, .commaOrClose)

/-- The token starts a value: scalars are delivered, a bracket or brace opens
a container unless the nesting limit is reached.  Where a value may start,
every open container has its frame on the stack, so the stack's length is the
current depth. -/
def startValue (t : Token) (st : List Frame) : Option (List Frame × Expect) :=
  match t with
  | .str raw => some (deliver (.string raw) st)
  | .num l => some (deliver (.number l) st)
  | .lit w =>
    some (deliver (if w = "null".toList then .null else .bool (decide (w = "true".toList))) st)
  | .lbrack => if st.length < maxNestingDepth then some (.inArr [] :: st, .valueOrClose) else none
  | .lbrace => if st.length < maxNestingDepth then some (st, .keyOrClose []) else none
  | _ => none

/-- One step of the parser. -/
def parseStep (st : List Frame) (e : Expect) (t : Token) : Option (List Frame × Expect) :=
  match e, t with
  | .value, t => startValue t st
  | .valueOrClose, .rbrack =>
    match st with
    | .inArr _ :: st' => some (deliver (.array []) st')
    | _ => none
  | .valueOrClose, t => startValue t st
  | .keyOrClose ms, .rbrace => some (deliver (.object ms.reverse) st)
  | .keyOrClose ms, .str k => some (st, .colon ms k)
  | .key ms, .str k => some (st, .colon ms k)
  | .colon ms k, .colon => some (.inObj ms k :: st, .value)
  | .commaOrClose, .comma =>
    match st with
    | .inArr _ :: _ => some (st, .value)
    | .inObj ms _ :: st' => some (st', .key ms)
    | [] => none
  | .commaOrClose, .rbrack =>
    match st with
    | .inArr items :: st' => some (deliver (.array items.reverse) st')
    | _ => none
  | .commaOrClose, .rbrace =>
    match st with
    | .inObj ms _ :: st' => some (deliver (.object ms.reverse) st')
    | _ => none
  | _, _ => none

/-- The parser over the token list. -/
def parseTokens : List Frame → Expect → List Token → Option JNode
  | _, .done v, [] => some v
  | _, _, [] => none
  | st, e, t :: ts =>
    match parseStep st e t with
    | none => none
    | some (st', e') => parseTokens st' e' ts

/-- The syntax check `Unmarshal` runs over the whole input before it decodes
anything (`checkValid`), together with the value the decoder then walks:
`none` when the input is not one JSON value surrounded by optional blanks. -/
def parseJSON (data : GoString) : Option JNode :=
  match lex data with
  | none => none
  | some ts => parseTokens [] .value ts

/-! ## The record types of `main.go` -/

/-- A Go `[]string` that is not nil: the elements up to its length, and the
elements its backing array still holds past the length.  The latter are never
read by the encoders, but `json.Unmarshal` decodes an array into the slice
that is already there, element over element, and so can bring them back. -/
structure Slice where
  elems : List GoString
  spare : List GoString
  deriving DecidableEq, Repr

/-- The struct `Publisher` of `main.go`.  The third field is spelled `website`
in the source, with a lower-case initial: Go does not export it, so neither
encoder ever reads or writes it. -/
structure Publisher where
  Name : GoString
  Country : GoString
  website : GoString
  deriving DecidableEq, Repr

/-- The struct `Book` of `main.go`.  A slice field is `none` for Go's nil
slice. -/
structure Book where
  ID : ObjectId
  Title : GoString
  Authors : Option Slice
  Genre : Option Slice
  PublishDate : GoString
  Characters : Option Slice
  Publisher : Publisher
  deriving DecidableEq, Repr

/-- The zero value of `Publisher`. -/
def Publisher.zero : Publisher := { Name := [], Country := [], website := [] }

/-- The zero value of `Book`, what `var book Book` declares. -/
def Book.zero : Book :=
  { ID := [], Title := [], Authors := none, Genre := none, PublishDate := [],
    Characters := none, Publisher := Publisher.zero }

/-- The elements of a `[]string`; none for the nil slice. -/
def sliceElems (l : Option Slice) : List GoString :=
  match l with
  | some s => s.elems
  | none => []

/-- The fields of `Book` in declaration order, tags copied from the source
character for character (in each, a blank follows `json:`). -/
def Book.fields : List StructField :=
  [ { Name := "ID", Tag := "json: \"id\"          bson:\"_id,omitempty\"" },
    { Name := "Title", Tag := "json: \"title\"       bson:\"title\"" },
    { Name := "Authors", Tag := "json: \"authors\"     bson: \"authors\"" },
    { Name := "Genre", Tag := "json: \"genre\"       bson: \"genre\"" },
    { Name := "PublishDate", Tag := "json: \"publishdate\" bson: \"publishdate\"" },
    { Name := "Characters", Tag := "json: \"characters\"  bson: \"characters\"" },
    { Name := "Publisher", Tag := "json: \"publisher\"   bson:\"publisher\"" } ]

/-- The fields of `Publisher` in declaration order, tags copied from the source. -/
def Publisher.fields : List StructField :=
  [ { Name := "Name", Tag := "json: \"budget\"    bson:\"name\"" },
    { Name := "Country", Tag := "json: \"country\"   bson:\"country\"" },
    { Name := "website", Tag := "json: \"website\"   bson:\"website\"" } ]

/-! ## `encoding/json`: field names -/

/-- The text before the first comma of a tag value (`parseTag`). -/
def tagName (tag : String) : String := String.mk (tag.toList.takeWhile (· != ','))

/-- A text split at its commas (`strings.Split(tag, ",")`). -/
def splitCommas : List Char → List (List Char)
  | [] => [[]]
  | c :: cs =>
    match splitCommas cs with
    | [] => [[c]]
    | w :: ws => if c = ',' then [] :: w :: ws else (c :: w) :: ws

/-- The text after the first comma of a tag value, split at commas. -/
def tagOptions (tag : String) : List String :=
  ((splitCommas tag.toList).drop 1).map String.mk

/-- The function `isValidTag` of `encoding/json`: a non-empty name made of
letters, digits and a fixed set of punctuation (letters and digits are the
ASCII ones here). -/
def isValidTag (s : String) : Bool :=
  !s.isEmpty && s.toList.all
    (fun c => c.isAlphanum || "!#$%&()*+-./:;<=>?@[]^_\x7b|\x7d~ ".toList.contains c)

/-- A field `encoding/json` sees: exported, and not tagged `json:"-"`. -/
def jsonVisible (f : StructField) : Bool :=
  f.exported && StructTag.Get f.Tag "json" != "-"

/-- The object key `encoding/json` uses for a field: the name in its `json`
tag when the tag has one and it is valid, the Go field name otherwise. -/
def jsonName (f : StructField) : String :=
  let name := tagName (StructTag.Get f.Tag "json")
  if isValidTag name then name else f.Name

/-- Whether the `json` tag of a field carries `omitempty`. -/
def jsonOmitEmpty (f : StructField) : Bool :=
  (tagOptions (StructTag.Get f.Tag "json")).contains "omitempty"

/-! ## `encoding/json`: `Unmarshal` into a `Book` -/

/-- Value of four hexadecimal digits. -/
def hex4 (a b c d : Byte) : Nat :=
  (((fromHexChar (byteChar a)).getD 0 * 16 + (fromHexChar (byteChar b)).getD 0) * 16
    + (fromHexChar (byteChar c)).getD 0) * 16 + (fromHexChar (byteChar d)).getD 0

/-- The replacement character U+FFFD. -/
def replacementChar : Char := Char.ofNat 0xFFFD

/-- A continuation byte of UTF-8. -/
def isCont (b : Byte) : Bool := decide (0x80 ≤ b.val) && decide (b.val ≤ 0xBF)

/-- The function `utf8.DecodeRune` on a non-empty input `b0 :: rest`: the
character at its head and the number of bytes it takes.  Anything that is not
the shortest encoding of a Unicode scalar value gives U+FFFD and width one. -/
def decodeRune (b0 : Byte) (rest : List Byte) : Char × Nat :=
  let p0 := b0.val
  if p0 < 0x80 then (Char.ofNat p0, 1)
  else if p0 < 0xC2 then (replacementChar, 1)
  else if p0 < 0xE0 then
    match rest with
    | b1 :: _ =>
      if isCont b1 then (Char.ofNat ((p0 - 0xC0) * 64 + (b1.val - 0x80)), 2)
      else (replacementChar, 1)
    | [] => (replacementChar, 1)
  else if p0 < 0xF0 then
    match rest with
    | b1 :: b2 :: _ =>
      if (if p0 = 0xE0 then 0xA0 else 0x80) ≤ b1.val ∧
          b1.val ≤ (if p0 = 0xED then 0x9F else 0xBF) ∧ isCont b2 then
        (Char.ofNat (((p0 - 0xE0) * 64 + (b1.val - 0x80)) * 64 + (b2.val - 0x80)), 3)
      else (replacementChar, 1)
    | _ => (replacementChar, 1)
  else if p0 < 0xF5 then
    match rest with
    | b1 :: b2 :: b3 :: _ =>
      if (if p0 = 0xF0 then 0x90 else 0x80) ≤ b1.val ∧
          b1.val ≤ (if p0 = 0xF4 then 0x8F else 0xBF) ∧ isCont b2 ∧ isCont b3 then
        (Char.ofNat ((((p0 - 0xF0) * 64 + (b1.val - 0x80)) * 64 + (b2.val - 0x80)) * 64
          + (b3.val - 0x80)), 4)
      else (replacementChar, 1)
    | _ => (replacementChar, 1)
  else (replacementChar, 1)

/-- What `unquote` puts out for a `\u` escape of value `n`, given a high
surrogate that may be waiting for its partner: the characters, and the high
surrogate now waiting.  A surrogate that does not pair up becomes U+FFFD. -/
def unquoteU (pending : Option Nat) (n : Nat) : List Char × Option Nat :=
  let flush : List Char := if pending.isSome then [replacementChar] else []
  if 0xD800 ≤ n ∧ n < 0xDC00 then (flush, some n)
  else if 0xDC00 ≤ n ∧ n < 0xE000 then
    match pending with
    | some hi => ([Char.ofNat (0x10000 + (hi - 0xD800) * 0x400 + (n - 0xDC00))], none)
    | none => ([replacementChar], none)
  else (flush ++ [Char.ofNat n], none)

/-- The character a one-letter escape stands for. -/
def escapeChar (e : Char) : Char :=
  if e = 'b' then Char.ofNat 8 else if e = 'f' then Char.ofNat 12
  else if e = 'n' then '\n' else if e = 'r' then '\r' else if e = 't' then '\t'
  else e

/-- The function `unquote` of `encoding/json` on the inside of a string literal
that the scanner accepted: escapes are decoded and bytes that are not
well-formed UTF-8 are replaced by U+FFFD, one per byte.  `pending` is a high
surrogate waiting for its partner, `skip` the number of bytes at the head that
belong to what was decoded already. -/
def unquoteJSON (pending : Option Nat) (skip : Nat) : List Byte → List Char
  | [] => if pending.isSome then [replacementChar] else []
  | b :: rest =>
    if 0 < skip then unquoteJSON pending (skip - 1) rest
    else if byteChar b = '\\' then
      match rest with
      | e :: rest' =>
        if byteChar e = 'u' then
          match rest' with
          | a :: b' :: c :: d :: _ =>
            let r := unquoteU pending (hex4 a b' c d)
            r.1 ++ unquoteJSON r.2 5 rest
          | _ => if pending.isSome then [replacementChar] else []
        else
          (if pending.isSome then [replacementChar] else []) ++
            escapeChar (byteChar e) :: unquoteJSON none 1 rest
      | [] => if pending.isSome then [replacementChar] else []
    else
      let r := decodeRune b rest
      (if pending.isSome then [replacementChar] else []) ++ r.1 :: unquoteJSON none (r.2 - 1) rest

/-- A string literal of the input as the text it denotes. -/
def jsonText (raw : List Byte) : String := String.mk (unquoteJSON none 0 raw)

/-- A string literal of the input as the Go string the decoder stores: always
well-formed UTF-8. -/
def jsonString (raw : List Byte) : GoString := utf8 (jsonText raw)

/-- One character under Unicode simple case folding, as far as it can meet an
ASCII letter: the Kelvin sign folds with `k`, the long s with `s`. -/
def foldRune (c : Char) : Char :=
  if c = Char.ofNat 0x212A then 'k' else if c = Char.ofNat 0x17F then 's' else c.toLower

/-- The function `strings.EqualFold` against an ASCII field name. -/
def equalFold (name key : String) : Bool :=
  name.toList.map foldRune == key.toList.map foldRune

/-- The field an object key is decoded into: the field whose name the key
spells exactly, otherwise the first whose name it spells up to case. -/
def findField (fields : List StructField) (key : String) : Option StructField :=
  match fields.find? (fun f => jsonName f == key) with
  | some f => some f
  | none => fields.find? (fun f => equalFold (jsonName f) key)

/-- How decoding one value ended. -/
inductive DecodeStatus where
  /-- Stored, or skipped without complaint. -/
  | ok
  /-- The value has the wrong JSON kind for the Go type: the decoder records an
  `UnmarshalTypeError`, leaves the target alone and goes on. -/
  | typeError
  /-- A type's own `UnmarshalJSON` refused the value: the decoder returns at
  once and the rest of the input is not decoded. -/
  | abort
  deriving DecidableEq, Repr

/-- The error `Unmarshal` returns, as far as its kind. -/
inductive UnmarshalError where
  | syntaxError
  | typeError
  | invalidObjectId
  deriving DecidableEq, Repr

/-- The later status wins unless the earlier one already is an error. -/
def DecodeStatus.and (a b : DecodeStatus) : DecodeStatus :=
  match a with
  | .ok => b
  | .typeError => if b = .abort then .abort else .typeError
  | .abort => .abort

/-- Decoding into a Go `string`. -/
def decodeString (v : JNode) (old : GoString) : GoString × DecodeStatus :=
  match v with
  | .string raw => (jsonString raw, .ok)
  | .null => (old, .ok)
  | _ => (old, .typeError)

/-- Decoding the elements of an array, each over what the backing array holds
at that position (the empty string where it holds nothing). -/
def decodeElems : List JNode → List GoString → List GoString × DecodeStatus
  | [], _ => ([], .ok)
  | v :: vs, backing =>
    let r := decodeString v (backing.headD [])
    let rs := decodeElems vs backing.tail
    (r.1 :: rs.1, r.2.and rs.2)

/-- Decoding into a `[]string`.  An array is decoded into the slice that is
there: element `i` over element `i` of the backing array, which the decoder
grows as needed and finally cuts to the number of elements read, the rest of
the backing array staying behind; the empty array gives a fresh empty slice.
`null` gives the nil slice. -/
def decodeStrings (v : JNode) (old : Option Slice) : Option Slice × DecodeStatus :=
  match v with
  | .array items =>
    let backing : List GoString :=
      match old with
      | some s => s.elems ++ s.spare
      | none => []
    let r := decodeElems items backing
    (some { elems := r.1, spare := if items.isEmpty then [] else backing.drop items.length },
      r.2)
  | .null => (none, .ok)
  | _ => (old, .typeError)

/-- The last checks of `bson.ObjectId.UnmarshalJSON`, on the value it ends up
looking at: `null` and the empty string give the empty identifier, a string of
exactly 24 hexadecimal digits gives its twelve bytes, anything else is an
error. -/
def oidFromLiteral (v : JNode) : Option ObjectId :=
  match v with
  | .null => some []
  | .string raw =>
    if raw = [] then some []
    else if raw.length = 24 then hexDecode (raw.map byteChar)
    else none
  | _ => none

/-- The fields of the struct `bson.ObjectId.UnmarshalJSON` decodes an object
into: `Id json.RawMessage` tagged `$oid` and the struct `Func` tagged
`$oidFunc`. -/
def oidFields : List StructField :=
  [ { Name := "Id", Tag := "json:\"$oid\"" }, { Name := "Func", Tag := "json:\"$oidFunc\"" } ]

/-- The one field of the struct `Func`: `Id json.RawMessage`, without a tag. -/
def oidFuncFields : List StructField := [ { Name := "Id", Tag := "" } ]

/-- Decoding the members of an `$oidFunc` object: the value last given for
`Id`, starting from the one found so far. -/
def oidFuncMembers : List (List Byte × JNode) → Option JNode → Option JNode
  | [], acc => acc
  | (k, v) :: ms, acc =>
    match findField oidFuncFields (jsonText k) with
    | some _ => oidFuncMembers ms (some v)
    | none => oidFuncMembers ms acc

/-- Decoding the members of an object into that struct: the raw value of
`$oid`, the raw value of `$oidFunc.Id`, and whether a type error came up (an
`$oidFunc` that is neither an object nor `null`). -/
def oidMembers : List (List Byte × JNode) → Option JNode × Option JNode × Bool →
    Option JNode × Option JNode × Bool
  | [], acc => acc
  | (k, v) :: ms, (id, fid, err) =>
    match findField oidFields (jsonText k) with
    | none => oidMembers ms (id, fid, err)
    | some f =>
      if f.Name = "Id" then oidMembers ms (some v, fid, err)
      else
        match v with
        | .object fms => oidMembers ms (id, oidFuncMembers fms fid, err)
        | .null => oidMembers ms (id, fid, err)
        | _ => oidMembers ms (id, fid, true)

/-- The method `bson.ObjectId.UnmarshalJSON`, which `encoding/json` calls with
every value met for the `ID` field.  An object is first decoded as extended
JSON: when that goes through, the value of `$oid`, or for want of it the value
of `$oidFunc.Id`, takes the place of the object.  Then `null` and the empty
string give the empty identifier, a string of exactly 24 hexadecimal digits
gives its twelve bytes, and anything else is an error. -/
def ObjectId.UnmarshalJSON (v : JNode) : Option ObjectId :=
  match v with
  | .object ms =>
    match oidMembers ms (none, none, false) with
    | (_, _, true) => none
    | (some d, _, false) => oidFromLiteral d
    | (none, some d, false) => oidFromLiteral d
    | (none, none, false) => none
  | v => oidFromLiteral v

/-- Decoding the members of an object into a `Publisher`. -/
def Publisher.decodeMembers : List (List Byte × JNode) → Publisher → Publisher × DecodeStatus
  | [], p => (p, .ok)
  | (k, v) :: ms, p =>
    match findField (Publisher.fields.filter jsonVisible) (jsonText k) with
    | none => Publisher.decodeMembers ms p
    | some f =>
      let r : Publisher × DecodeStatus :=
        if f.Name = "Name" then
          let x := decodeString v p.Name
          ({ p with Name := x.1 }, x.2)
        else if f.Name = "Country" then
          let x := decodeString v p.Country
          ({ p with Country := x.1 }, x.2)
        else (p, .ok)
      let rest := Publisher.decodeMembers ms r.1
      (rest.1, r.2.and rest.2)

/-- Decoding into a `Publisher`. -/
def Publisher.decode (v : JNode) (p : Publisher) : Publisher × DecodeStatus :=
  match v with
  | .object ms => Publisher.decodeMembers ms p
  | .null => (p, .ok)
  | _ => (p, .typeError)

/-- Decoding one object member into the field of `Book` it names. -/
def Book.decodeField (b : Book) (f : StructField) (v : JNode) : Book × DecodeStatus :=
  if f.Name = "ID" then
    match ObjectId.UnmarshalJSON v with
    | some id => ({ b with ID := id }, .ok)
    | none => (b, .abort)
  else if f.Name = "Title" then
    let x := decodeString v b.Title
    ({ b with Title := x.1 }, x.2)
  else if f.Name = "Authors" then
    let x := decodeStrings v b.Authors
    ({ b with Authors := x.1 }, x.2)
  else if f.Name = "Genre" then
    let x := decodeStrings v b.Genre
    ({ b with Genre := x.1 }, x.2)
  else if f.Name = "PublishDate" then
    let x := decodeString v b.PublishDate
    ({ b with PublishDate := x.1 }, x.2)
  else if f.Name = "Characters" then
    let x := decodeStrings v b.Characters
    ({ b with Characters := x.1 }, x.2)
  else if f.Name = "Publisher" then
    let x := Publisher.decode v b.Publisher
    ({ b with Publisher := x.1 }, x.2)
  else (b, .ok)

/-- Decoding the members of an object into a `Book`, in input order; a member
whose name matches no field is skipped; after an abort nothing more is stored. -/
def Book.decodeMembers : List (List Byte × JNode) → Book → Book × DecodeStatus
  | [], b => (b, .ok)
  | (k, v) :: ms, b =>
    match findField (Book.fields.filter jsonVisible) (jsonText k) with
    | none => Book.decodeMembers ms b
    | some f =>
      let r := Book.decodeField b f v
      if r.2 = .abort then r
      else
        let rest := Book.decodeMembers ms r.1
        (rest.1, r.2.and rest.2)

/-- Decoding a value into a `Book`. -/
def Book.decode (v : JNode) (b : Book) : Book × DecodeStatus :=
  match v with
  | .object ms => Book.decodeMembers ms b
  | .null => (b, .ok)
  | _ => (b, .typeError)

/-- The call `json.Unmarshal(body, &book)`.  The whole input is checked for
syntax first; when the check fails the error is returned and `book` has not
been touched.  Otherwise the value is decoded into `book`. -/
def Unmarshal (data : GoString) (book : Book) : Book × Option UnmarshalError :=
  match parseJSON data with
  | none => (book, some .syntaxError)
  | some v =>
    match Book.decode v book with
    | (b, .ok) => (b, none)
    | (b, .typeError) => (b, some .typeError)
    | (b, .abort) => (b, some .invalidObjectId)

/-! ## `encoding/json`: `Marshal` of a `Book` -/

/-- A JSON value to be written out. -/
inductive JValue where
  | null
  | string (s : GoString)
  | array (items : List JValue)
  | object (members : List (String × JValue))

/-- The method `bson.ObjectId.MarshalJSON`: the identifier as a string of
hexadecimal digits. -/
def ObjectId.MarshalJSON (id : ObjectId) : JValue := .string (utf8 id.Hex)

/-- A `[]string` as JSON: `null` for the nil slice, an array otherwise. -/
def marshalStrings : Option Slice → JValue
  | none => .null
  | some s => .array (s.elems.map JValue.string)

/-- A string field as an object member, unless `omitempty` drops it. -/
def stringMember (f : StructField) (s : GoString) : List (String × JValue) :=
  if jsonOmitEmpty f && s.isEmpty then [] else [(jsonName f, .string s)]

/-- A slice field as an object member, unless `omitempty` drops it. -/
def stringsMember (f : StructField) (l : Option Slice) : List (String × JValue) :=
  if jsonOmitEmpty f && (sliceElems l).isEmpty then [] else [(jsonName f, marshalStrings l)]

/-- The member `json.Marshal` writes for one field of `Publisher`. -/
def Publisher.jsonMember (p : Publisher) (f : StructField) : List (String × JValue) :=
  if f.Name = "Name" then stringMember f p.Name
  else if f.Name = "Country" then stringMember f p.Country
  else if f.Name = "website" then stringMember f p.website
  else []

/-- The value `json.Marshal` writes for a `Publisher`. -/
def Publisher.MarshalJSON (p : Publisher) : JValue :=
  .object ((Publisher.fields.filter jsonVisible).flatMap p.jsonMember)

/-- The member `json.Marshal` writes for one field of `Book`. -/
def Book.jsonMember (b : Book) (f : StructField) : List (String × JValue) :=
  if f.Name = "ID" then
    (if jsonOmitEmpty f && b.ID.isEmpty then [] else [(jsonName f, b.ID.MarshalJSON)])
  else if f.Name = "Title" then stringMember f b.Title
  else if f.Name = "Authors" then stringsMember f b.Authors
  else if f.Name = "Genre" then stringsMember f b.Genre
  else if f.Name = "PublishDate" then stringMember f b.PublishDate
  else if f.Name = "Characters" then stringsMember f b.Characters
  else if f.Name = "Publisher" then [(jsonName f, b.Publisher.MarshalJSON)]
  else []

/-- The call `json.Marshal(book)`: an object with one member per visible field,
in declaration order.  The bytes the handler writes are the compact rendering
of this value. -/
def Marshal (b : Book) : JValue :=
  .object ((Book.fields.filter jsonVisible).flatMap b.jsonMember)


/-! ## `gopkg.in/mgo.v2/bson`: documents and the struct encoder -/

/-- A BSON value. -/
inductive BValue where
  | objectId (id : ObjectId)
  | str (s : GoString)
  | int (i : Int)
  | bool (b : Bool)
  | null
  | arr (items : List BValue)
  | doc (fields : List (String × BValue))

/-- A BSON document: its elements in order. -/
abbrev Doc := List (String × BValue)

mutual
/-- Equality of BSON values, kind by kind. -/
def BValue.beq : BValue → BValue → Bool
  | .objectId a, .objectId b => a == b
  | .str a, .str b => a == b
  | .int a, .int b => a == b
  | .bool a, .bool b => a == b
  | .null, .null => true
  | .arr a, .arr b => BValue.beqList a b
  | .doc a, .doc b => BValue.beqFields a b
  | _, _ => false
/-- Equality of arrays, element by element. -/
def BValue.beqList : List BValue → List BValue → Bool
  | [], [] => true
  | x :: xs, y :: ys => BValue.beq x y && BValue.beqList xs ys
  | _, _ => false
/-- Equality of documents, element by element in order. -/
def BValue.beqFields : List (String × BValue) → List (String × BValue) → Bool
  | [], [] => true
  | (k, x) :: xs, (l, y) :: ys => k == l && BValue.beq x y && BValue.beqFields xs ys
  | _, _ => false
end

/-- The tag text the bson encoder works from: the value of the `bson` key, or
the whole tag when that is empty and the tag holds no colon at all. -/
def bsonTag (f : StructField) : String :=
  let tag := StructTag.Get f.Tag "bson"
  if tag = "" ∧ !f.Tag.toList.contains ':' then f.Tag else tag

/-- A field the bson encoder sees: exported, and not tagged `-`. -/
def bsonVisible (f : StructField) : Bool := f.exported && bsonTag f != "-"

/-- The element key of a field: the name in its tag, or the Go field name in
lower case when the tag gives none. -/
def bsonKey (f : StructField) : String :=
  let name := tagName (bsonTag f)
  if name = "" then String.mk (f.Name.toList.map Char.toLower) else name

/-- Whether the tag of a field carries the flag `omitempty`.  (The flag
`minsize` concerns integers only; `inline` and the panic on an unknown flag are
not modelled: `Get` finds no flag in any tag of `main.go`.) -/
def bsonOmitEmpty (f : StructField) : Bool := (tagOptions (bsonTag f)).contains "omitempty"

/-- The encoder's message for an `ObjectId` value that is not twelve bytes
long.  The encoder panics with this text and `bson.Marshal` turns the panic
into the error it returns. -/
def objectIdLengthError (n : Nat) : String :=
  "ObjectIDs must be exactly 12 bytes long (got " ++ toString n ++ ")"

/-- A `[]string` as a BSON array; the nil slice encodes as the empty array. -/
def bsonStrings (l : Option Slice) : BValue := .arr ((sliceElems l).map BValue.str)

/-- The elements the encoder writes for one field of `Publisher`. -/
def Publisher.bsonElem (p : Publisher) (f : StructField) : Doc :=
  let s := if f.Name = "Name" then p.Name else if f.Name = "Country" then p.Country else p.website
  if bsonOmitEmpty f && s.isEmpty then [] else [(bsonKey f, .str s)]

/-- The document the encoder writes for a `Publisher`. -/
def Publisher.toBSON (p : Publisher) : Doc :=
  (Publisher.fields.filter bsonVisible).flatMap p.bsonElem

/-- The zero test of `omitempty` on a `Publisher`: every exported field is empty. -/
def Publisher.isZero (p : Publisher) : Bool := p.Name.isEmpty && p.Country.isEmpty

/-- The elements the encoder writes for one field of `Book`, or its error. -/
def Book.bsonElem (b : Book) (f : StructField) : Except String Doc :=
  if f.Name = "ID" then
    if bsonOmitEmpty f && b.ID.isEmpty then .ok []
    else if b.ID.length = 12 then .ok [(bsonKey f, .objectId b.ID)]
    else .error (objectIdLengthError b.ID.length)
  else if f.Name = "Title" then
    .ok (if bsonOmitEmpty f && b.Title.isEmpty then [] else [(bsonKey f, .str b.Title)])
  else if f.Name = "Authors" then
    .ok (if bsonOmitEmpty f && (sliceElems b.Authors).isEmpty then []
      else [(bsonKey f, bsonStrings b.Authors)])
  else if f.Name = "Genre" then
    .ok (if bsonOmitEmpty f && (sliceElems b.Genre).isEmpty then []
      else [(bsonKey f, bsonStrings b.Genre)])
  else if f.Name = "PublishDate" then
    .ok (if bsonOmitEmpty f && b.PublishDate.isEmpty then []
      else [(bsonKey f, .str b.PublishDate)])
  else if f.Name = "Characters" then
    .ok (if bsonOmitEmpty f && (sliceElems b.Characters).isEmpty then []
      else [(bsonKey f, bsonStrings b.Characters)])
  else if f.Name = "Publisher" then
    .ok (if bsonOmitEmpty f && b.Publisher.isZero then []
      else [(bsonKey f, .doc b.Publisher.toBSON)])
  else .ok []

/-- The elements of the listed fields, in order, up to the first error. -/
def Book.bsonElems (b : Book) : List StructField → Except String Doc
  | [] => .ok []
  | f :: fs =>
    match b.bsonElem f with
    | .error e => .error e
    | .ok d =>
      match Book.bsonElems b fs with
      | .error e => .error e
      | .ok ds => .ok (d ++ ds)

/-- The call `bson.Marshal(book)` the driver makes on a `Book` it is handed:
one element per visible field in declaration order, or the encoder's error. -/
def Book.toBSON (b : Book) : Except String Doc :=
  b.bsonElems (Book.fields.filter bsonVisible)

/-! ## `gopkg.in/mgo.v2/bson`: the struct decoder -/

/-- Decoding into a field whose Go kind is `string`, which `string` and
`bson.ObjectId` both are: the bytes of a string or of an identifier are
copied, `null` gives the zero value, a value of another kind is dropped and
the field keeps the value `old`. -/
def bsonString (v : BValue) (old : GoString) : GoString :=
  match v with
  | .str s => s
  | .objectId id => id
  | .null => []
  | _ => old

/-- Decoding an array element into a `string` of the slice under construction:
whether the element is kept, and its value.  A string or an identifier is
copied; `null` and an embedded document (which the decoder reads past and
reports as done) leave the zero value; anything else is left out. -/
def bsonStringElem (v : BValue) : Option GoString :=
  match v with
  | .str s => some s
  | .objectId id => some id
  | .null => some []
  | .doc _ => some []
  | _ => none

/-- Decoding into a `[]string`: an array gives a new slice of exactly the
elements kept, `null` the nil slice, anything else is dropped. -/
def bsonSlice (v : BValue) (old : Option Slice) : Option Slice :=
  match v with
  | .arr items => some { elems := items.filterMap bsonStringElem, spare := [] }
  | .null => none
  | _ => old

/-- Decoding the elements of a document into a `Publisher`, by exact key. -/
def Publisher.fromElems : Doc → Publisher → Publisher
  | [], p => p
  | (k, v) :: es, p =>
    match (Publisher.fields.filter bsonVisible).find? (fun f => bsonKey f == k) with
    | none => Publisher.fromElems es p
    | some f =>
      Publisher.fromElems es
        (if f.Name = "Name" then { p with Name := bsonString v p.Name }
         else if f.Name = "Country" then { p with Country := bsonString v p.Country }
         else p)

/-- One element decoded into the field of `Book` it names. -/
def Book.setBSON (b : Book) (f : StructField) (v : BValue) : Book :=
  if f.Name = "ID" then { b with ID := bsonString v b.ID }
  else if f.Name = "Title" then { b with Title := bsonString v b.Title }
  else if f.Name = "Authors" then { b with Authors := bsonSlice v b.Authors }
  else if f.Name = "Genre" then { b with Genre := bsonSlice v b.Genre }
  else if f.Name = "PublishDate" then { b with PublishDate := bsonString v b.PublishDate }
  else if f.Name = "Characters" then { b with Characters := bsonSlice v b.Characters }
  else if f.Name = "Publisher" then
    match v with
    | .doc es => { b with Publisher := Publisher.fromElems es Publisher.zero }
    | .null => { b with Publisher := Publisher.zero }
    | _ => b
  else b

/-- Decoding the elements of a document into a `Book`, by exact key; an
element whose key names no field is dropped. -/
def Book.fromElems : Doc → Book → Book
  | [], b => b
  | (k, v) :: es, b =>
    match (Book.fields.filter bsonVisible).find? (fun f => bsonKey f == k) with
    | none => Book.fromElems es b
    | some f => Book.fromElems es (b.setBSON f v)

/-- The call `bson.Unmarshal(data, &book)` the driver makes on the document a
query returned: the struct is zeroed, then filled from the elements. -/
def Book.fromBSON (d : Doc) : Book := Book.fromElems d Book.zero

/-! ## The collection handle -/

/-- The database behind `db.collection`, reduced to the four requests the
handlers send.  The state type `σ` is whatever the database holds; every
request yields an answer and the state it leaves, and may fail with an error
message. -/
structure Backend (σ : Type) where
  /-- The query `{"_id": id}`, first match. -/
  findOne : σ → ObjectId → Except String Doc × σ
  /-- Insertion of one document. -/
  insert : σ → Doc → Option String × σ
  /-- The update `{"$set": fields}` on the first match of `{"_id": id}`. -/
  updateSet : σ → ObjectId → Doc → Option String × σ
  /-- Removal of the first match of `{"_id": id}`. -/
  remove : σ → ObjectId → Option String × σ

/-- The call `db.collection.Find(bson.M{"_id": id}).One(&book)`: the document
found is decoded into `book`. -/
def FindOne {σ : Type} (B : Backend σ) (db : σ) (id : ObjectId) : Except String Book × σ :=
  match B.findOne db id with
  | (.ok d, db') => (.ok (Book.fromBSON d), db')
  | (.error e, db') => (.error e, db')

/-- The call `db.collection.Insert(book)`: the driver encodes the value and
sends it; an encoder error is returned without anything being sent. -/
def Insert {σ : Type} (B : Backend σ) (db : σ) (book : Book) : Option String × σ :=
  match book.toBSON with
  | .ok d => B.insert db d
  | .error e => (some e, db)

/-- The call `db.collection.Update(bson.M{"_id": id}, bson.M{"$set": &book})`:
the driver encodes the update and sends it; an encoder error is returned
without anything being sent. -/
def Update {σ : Type} (B : Backend σ) (db : σ) (id : ObjectId) (book : Book) :
    Option String × σ :=
  match book.toBSON with
  | .ok d => B.updateSet db id d
  | .error e => (some e, db)

/-- The call `db.collection.Remove(bson.M{"_id": id})`. -/
def Remove {σ : Type} (B : Backend σ) (db : σ) (id : ObjectId) : Option String × σ :=
  B.remove db id

/-! ## A MongoDB collection -/

/-- The collection `booksdb.books` as the server holds it: the documents in
insertion order, and the identifiers the server will hand out, one after the
other, to documents that arrive without an `_id` element. -/
structure Mongo where
  docs : List Doc
  serverIds : Nat → ObjectId
  handedOut : Nat

/-- The `_id` element of a document. -/
def docId (d : Doc) : Option BValue := d.lookup "_id"

/-- The document matches the query `{"_id": id}`. -/
def hasId (id : ObjectId) (d : Doc) : Bool :=
  match docId d with
  | some (.objectId o) => o == id
  | _ => false

/-- Two documents carry equal `_id` elements. -/
def sameId (a b : Doc) : Bool :=
  match docId a, docId b with
  | some x, some y => BValue.beq x y
  | _, _ => false

/-- One field set to a value: replaced in place when the document has the key,
added at the end otherwise. -/
def setField (k : String) (v : BValue) : Doc → Doc
  | [] => [(k, v)]
  | (k', v') :: es => if k' = k then (k, v) :: es else (k', v') :: setField k v es

/-- The operator `$set` applied to a document.  Keys are plain top-level field
names (no key the encoder writes for a `Book` holds a dot or a dollar sign). -/
def applySet (fields : Doc) (d : Doc) : Doc :=
  fields.foldl (fun acc kv => setField kv.1 kv.2 acc) d

/-- The update would change the `_id` of the document, which the server refuses. -/
def altersId (fields : Doc) (d : Doc) : Bool :=
  fields.any (fun kv => kv.1 == "_id" &&
    !(match docId d with
      | some x => BValue.beq x kv.2
      | none => false))

/-- The first document that satisfies `p`, rewritten by `f`. -/
def updateFirst (p : Doc → Bool) (f : Doc → Doc) : List Doc → List Doc
  | [] => []
  | d :: ds => if p d then f d :: ds else d :: updateFirst p f ds

/-- The message of `mgo.ErrNotFound`. -/
def ErrNotFound : String := "not found"

/-- The server's answer to an insertion that repeats an `_id` (its text names
the index and the key; only the leading code is kept here). -/
def errDuplicateKey : String := "E11000 duplicate key error"

/-- The server's answer to an update that would change an `_id`. -/
def errImmutableId : String := "the (immutable) field _id was found to have been altered"

/-- The query `{"_id": id}` with `One`: the first match in storage order, or
`mgo.ErrNotFound`; the collection stays as it is. -/
def Mongo.findOne (m : Mongo) (id : ObjectId) : Except String Doc × Mongo :=
  match m.docs.find? (hasId id) with
  | some d => (.ok d, m)
  | none => (.error ErrNotFound, m)

/-- Insertion.  The driver sends the document as it was encoded and adds
nothing to it; the server gives a document that arrives without an `_id`
element its next identifier, put in front, and refuses a document whose `_id`
is already in the collection. -/
def Mongo.insert (m : Mongo) (d : Doc) : Option String × Mongo :=
  match docId d with
  | some _ =>
    if m.docs.any (sameId d) then (some errDuplicateKey, m)
    else (none, { m with docs := m.docs ++ [d] })
  | none =>
    let d' : Doc := ("_id", .objectId (m.serverIds m.handedOut)) :: d
    let m' : Mongo := { m with handedOut := m.handedOut + 1 }
    if m.docs.any (sameId d') then (some errDuplicateKey, m')
    else (none, { m' with docs := m.docs ++ [d'] })

/-- The update `{"$set": fields}` of the first match of `{"_id": id}`;
`mgo.ErrNotFound` when nothing matches. -/
def Mongo.updateSet (m : Mongo) (id : ObjectId) (fields : Doc) : Option String × Mongo :=
  match m.docs.find? (hasId id) with
  | none => (some ErrNotFound, m)
  | some d =>
    if altersId fields d then (some errImmutableId, m)
    else (none, { m with docs := updateFirst (hasId id) (applySet fields) m.docs })

/-- Removal of the first match of `{"_id": id}`; `mgo.ErrNotFound` when
nothing matches. -/
def Mongo.remove (m : Mongo) (id : ObjectId) : Option String × Mongo :=
  match m.docs.find? (hasId id) with
  | none => (some ErrNotFound, m)
  | some _ => (none, { m with docs := m.docs.eraseP (hasId id) })

/-- The MongoDB collection as a backend. -/
def Mongo.backend : Backend Mongo :=
  { findOne := Mongo.findOne, insert := Mongo.insert,
    updateSet := Mongo.updateSet, remove := Mongo.remove }

/-- What the server guarantees of a collection: every document has an `_id`
and no two documents have the same one. -/
def Mongo.WellFormed (m : Mongo) : Prop :=
  (∀ d ∈ m.docs, (docId d).isSome) ∧ (m.docs.map docId).Nodup

/-! ## `net/http`: the response writer -/

/-- A piece of response body: text written as is, or the rendering of a JSON
value by `json.Marshal`. -/
inductive Chunk where
  | text (s : String)
  | json (v : JValue)

/-- The state of an `http.ResponseWriter`: whether the status line has gone
out and with which code, the header map the handler edits, the headers as
they were when the status line went out, and the body written so far. -/
structure ResponseWriter where
  wroteHeader : Bool
  status : Nat
  header : List (String × String)
  sent : List (String × String)
  body : List Chunk

/-- The writer a handler is given. -/
def ResponseWriter.new : ResponseWriter :=
  { wroteHeader := false, status := 0, header := [], sent := [], body := [] }

/-- The constant `http.StatusOK`. -/
def StatusOK : Nat := 200

/-- The method `WriteHeader`: sends the status line with the headers set so
far; a second call changes nothing. -/
def ResponseWriter.WriteHeader (w : ResponseWriter) (code : Nat) : ResponseWriter :=
  if w.wroteHeader then w
  else { w with wroteHeader := true, status := code, sent := w.header }

/-- The call `w.Header().Set(k, v)`. -/
def ResponseWriter.Set (w : ResponseWriter) (k v : String) : ResponseWriter :=
  { w with header := (k, v) :: w.header.filter (fun kv => kv.1 != k) }

/-- The method `Write`: when the status line has not gone out yet it goes out
with `http.StatusOK` first. -/
def ResponseWriter.Write (w : ResponseWriter) (c : Chunk) : ResponseWriter :=
  let w' := w.WriteHeader StatusOK
  { w' with body := w'.body ++ [c] }

/-! ## The handlers of `main.go` -/

/-- What a handler that returned has done: the response it wrote and the
database state it left. -/
structure Run (σ : Type) where
  w : ResponseWriter
  db : σ

/-- The handler `GetBook`.  `id` is `mux.Vars(r)["id"]`.  The result is the
panic when `bson.ObjectIdHex` panics, and the completed run otherwise. -/
def GetBook {σ : Type} (B : Backend σ) (db : σ) (id : String) : Except Panic (Run σ) :=
  let w := ResponseWriter.new.WriteHeader StatusOK
  match ObjectIdHex id with
  | .error p => .error p
  | .ok oid =>
    match FindOne B db oid with
    | (.error err, db') => .ok { w := w.Write (.text err), db := db' }
    | (.ok book, db') =>
      let w := w.Set "Content-Type" "application/json"
      .ok { w := w.Write (.json (Marshal book)), db := db' }

/-- The handler `PostBook`.  `body` is what `ioutil.ReadAll(r.Body)` returned
and `newId` what `bson.NewObjectId()` returns.  The error of `json.Unmarshal`
is discarded. -/
def PostBook {σ : Type} (B : Backend σ) (db : σ) (body : GoString) (newId : ObjectId) :
    Except Panic (Run σ) :=
  let w := ResponseWriter.new
  let book := (Unmarshal body Book.zero).1
  let book := { book with ID := newId }
  match Insert B db book with
  | (some err, db') => .ok { w := w.Write (.text err), db := db' }
  | (none, db') =>
    let w := w.Set "Content-Type" "application/json"
    .ok { w := w.Write (.json (Marshal book)), db := db' }

/-- The handler `UpdateBook`.  `id` is `mux.Vars(r)["id"]` and `body` the
request body.  The error of `json.Unmarshal` is discarded. -/
def UpdateBook {σ : Type} (B : Backend σ) (db : σ) (id : String) (body : GoString) :
    Except Panic (Run σ) :=
  let w := ResponseWriter.new
  let book := (Unmarshal body Book.zero).1
  match ObjectIdHex id with
  | .error p => .error p
  | .ok oid =>
    match Update B db oid book with
    | (some err, db') =>
      let w := w.WriteHeader StatusOK
      .ok { w := w.Write (.text err), db := db' }
    | (none, db') =>
      let w := w.Set "Content-Type" "text"
      .ok { w := w.Write (.text "Update succesfully"), db := db' }

/-- The handler `DeleteBook`.  `id` is `mux.Vars(r)["id"]`. -/
def DeleteBook {σ : Type} (B : Backend σ) (db : σ) (id : String) : Except Panic (Run σ) :=
  let w := ResponseWriter.new
  match ObjectIdHex id with
  | .error p => .error p
  | .ok oid =>
    match Remove B db oid with
    | (some err, db') =>
      let w := w.WriteHeader StatusOK
      .ok { w := w.Write (.text err), db := db' }
    | (none, db') =>
      let w := w.Set "Content-Type" "text"
      .ok { w := w.Write (.text "Delete Succesfully"), db := db' }

/-! ## `gorilla/mux`: the route table of `main` -/

/-- The four handlers. -/
inductive Handler where
  | GetBook | PostBook | UpdateBook | DeleteBook
  deriving DecidableEq, Repr

/-- A registered route: `r.HandleFunc(path, handler).Methods(methods...)`. -/
structure Route where
  path : String
  methods : List String
  handler : Handler

/-- The routes `main` registers, in registration order, templates as written. -/
def routes : List Route :=
  [ { path := "/api/books/\x7bid:[a-zA-Z0-9]*\x7d", methods := ["GET"], handler := .GetBook },
    { path := "/api/books", methods := ["POST"], handler := .PostBook },
    { path := "/api/books/\x7bid:[a-zA-Z0-9]*\x7d", methods := ["PUT"], handler := .UpdateBook },
    { path := "/api/books/\x7bid:[a-zA-Z0-9]*\x7d", methods := ["DELETE"], handler := .DeleteBook } ]

/-- A compiled path template of the shape the routes of `main` have: literal
text, then at most one variable, at the very end, whose pattern is a bracketed
character class under a star.  The router anchors the pattern at both ends of
the path. -/
structure RouteRegexp where
  literal : List Char
  var : Option (String × List (Char × Char))

/-- The inside of a bracketed character class: ranges `a-z` and single
characters. -/
def parseClass : List Char → List (Char × Char)
  | [] => []
  | a :: '-' :: b :: rest => (a, b) :: parseClass rest
  | a :: rest => (a, a) :: parseClass rest

/-- Membership in a character class. -/
def inClass (cls : List (Char × Char)) (c : Char) : Bool :=
  cls.any (fun r => decide (r.1 ≤ c) && decide (c ≤ r.2))

/-- A variable pattern of the form `[...]*` with a plain class inside. -/
def compilePattern (pat : List Char) : Option (List (Char × Char)) :=
  match pat with
  | '[' :: rest =>
    match rest.reverse with
    | '*' :: ']' :: inner =>
      if inner.any (fun c => c = '[' || c = ']' || c = '\\' || c = '^') then none
      else some (parseClass inner.reverse)
    | _ => none
  | _ => none

/-- Compilation of a path template; `none` for a template outside the shape
described at `RouteRegexp`. -/
def compileTemplate (tpl : List Char) : Option RouteRegexp :=
  let lit := tpl.takeWhile (· != '\x7b')
  match tpl.dropWhile (· != '\x7b') with
  | [] => if lit.contains '\x7d' then none else some { literal := lit, var := none }
  | _ :: rest =>
    match rest.reverse with
    | '\x7d' :: inner =>
      let inner := inner.reverse
      match inner.dropWhile (· != ':') with
      | ':' :: pat =>
        match compilePattern pat with
        | some cls =>
          some { literal := lit, var := some (String.mk (inner.takeWhile (· != ':')), cls) }
        | none => none
      | _ => none
    | _ => none

/-- The path matcher of a route: the variables it binds when the whole path
matches the template. -/
def matchPath (re : RouteRegexp) (path : List Char) : Option (List (String × String)) :=
  match re.var with
  | none => if path = re.literal then some [] else none
  | some (name, cls) =>
    if re.literal.isPrefixOf path ∧ (path.drop re.literal.length).all (inClass cls) then
      some [(name, String.mk (path.drop re.literal.length))]
    else none

/-- A route matches a request when its method matcher and its path matcher
both do. -/
def Route.match? (r : Route) (method path : String) : Option (List (String × String)) :=
  if r.methods.contains method then
    match compileTemplate r.path.toList with
    | some re => matchPath re path.toList
    | none => none
  else none

/-- The method `Router.Match` over a route list: the first route that matches
decides the handler and the variables `mux.Vars` will return. -/
def matchRoutes (rs : List Route) (method path : String) :
    Option (Handler × List (String × String)) :=
  match rs with
  | [] => none
  | r :: rest =>
    match r.match? method path with
    | some vars => some (r.handler, vars)
    | none => matchRoutes rest method path

/-- The router of `main` on a request with the given method and URL path: the
handler it runs and the path variables, or `none` when it answers itself (not
found, method not allowed).  The router first redirects a request whose path
is not in canonical form; a path that matches one of the templates has no
empty, `.` or `..` segment, so the redirect never hides a match and is left
out. -/
def dispatch (method path : String) : Option (Handler × List (String × String)) :=
  matchRoutes routes method path


/-! ## Observations used in the statements -/

/-- The member names of a JSON object, in order. -/
def JValue.keys : JValue → List String
  | .object ms => ms.map Prod.fst
  | _ => []

/-- The value of a member of a JSON object. -/
def JValue.member (k : String) : JValue → Option JValue
  | .object ms => ms.lookup k
  | _ => none

/-- The record `PostBook` builds from a request body and a fresh identifier:
the decoded payload with its `ID` overwritten. -/
def postedBook (body : GoString) (newId : ObjectId) : Book :=
  { (Unmarshal body Book.zero).1 with ID := newId }

/-- The response of a handler that reports the error text `e`: status 200 and
a body that is exactly `e`. -/
def ReportsError (w : ResponseWriter) (e : String) : Prop :=
  w.wroteHeader = true ∧ w.status = 200 ∧ w.body = [.text e]

/-- A database that cannot be reached: every request fails with the driver's
message for that.  Its state is the number of requests made so far. -/
def unreachable : Backend Nat :=
  { findOne := fun n _ => (.error "no reachable servers", n + 1),
    insert := fun n _ => (some "no reachable servers", n + 1),
    updateSet := fun n _ _ => (some "no reachable servers", n + 1),
    remove := fun n _ => (some "no reachable servers", n + 1) }

/-- A sample identifier, as `bson.NewObjectId` might return it. -/
def sampleId : ObjectId := [0x5f, 0x1a, 0x2b, 0x3c, 0x4d, 0x5e, 0x6f, 0x70, 0x81, 0x92, 0xa3, 0xb4]

/-- A second identifier, as the server might assign it. -/
def serverId : ObjectId := [0x60, 0x00, 0x00, 0x00, 0x00, 0x00, 0x00, 0x00, 0x00, 0x00, 0x00, 0x01]

/-- A third identifier. -/
def otherId : ObjectId := [0xaa, 0xbb, 0xcc, 0xdd, 0xee, 0xff, 0x00, 0x11, 0x22, 0x33, 0x44, 0x55]

/-- An empty collection on a server whose next identifier is `serverId`. -/
def emptyBooks : Mongo := { docs := [], serverIds := fun _ => serverId, handedOut := 0 }

/-- The creation payload of the scenario: a title and one author. -/
def duneBody : GoString :=
  utf8 "\x7b\"title\":\"Dune\",\"authors\":[\"Frank Herbert\"]\x7d"

/-- The document the scenario's creation request leaves in the collection. -/
def duneDoc : Doc :=
  [ ("_id", .objectId serverId), ("id", .objectId sampleId), ("title", .str "Dune"),
    ("authors", .arr [.str "Frank Herbert"]), ("genre", .arr []), ("publishdate", .str ""),
    ("characters", .arr []), ("publisher", .doc [("name", .str ""), ("country", .str "")]) ]

/-- A collection holding the scenario's record. -/
def duneBooks : Mongo := { docs := [duneDoc], serverIds := fun _ => serverId, handedOut := 1 }

/-- The scenario's record after its `id` element was replaced by `otherId` and
its title changed. -/
def messiahDoc : Doc :=
  [ ("_id", .objectId serverId), ("id", .objectId otherId), ("title", .str "Dune Messiah"),
    ("authors", .arr []), ("genre", .arr []), ("publishdate", .str ""),
    ("characters", .arr []), ("publisher", .doc [("name", .str ""), ("country", .str "")]) ]

/-- An update payload that carries an identifier of its own. -/
def messiahBody : GoString :=
  utf8 "\x7b\"id\":\"aabbccddeeff001122334455\",\"title\":\"Dune Messiah\"\x7d"

/-- A creation payload that carries an identifier of its own. -/
def duneBodyWithId : GoString :=
  utf8 "\x7b\"id\":\"aabbccddeeff001122334455\",\"title\":\"Dune\"\x7d"

/-- A body cut off in the middle of a string. -/
def brokenBody : GoString := utf8 "\x7b\"title\":\"Du"

/-! ## Lemmas -/

set_option maxRecDepth 100000 in
theorem fromHexChar_hexDigit : ∀ b : Byte,
    fromHexChar (hexDigit (b.val / 16)) = some (b.val / 16) ∧
    fromHexChar (hexDigit (b.val % 16)) = some (b.val % 16) ∧
    (Fin.ofNat (b.val / 16 * 16 + b.val % 16) : Byte) = b := by
  decide

theorem hexDecode_hexEncode (bs : List Byte) : hexDecode (hexEncode bs) = some bs := by
  induction bs with
  | nil => rfl
  | cons b bs ih =>
    obtain ⟨h1, h2, h3⟩ := fromHexChar_hexDigit b
    simp only [hexEncode, hexDecode, h1, h2, ih, h3]

theorem ObjectIdHex_Hex (id : ObjectId) (h : id.length = 12) : ObjectIdHex id.Hex = .ok id := by
  simp [ObjectIdHex, ObjectId.Hex, hexDecode_hexEncode, h]

theorem Hex_injective (a b : ObjectId) (h : a.Hex = b.Hex) : a = b := by
  have h' : hexEncode a = hexEncode b := congrArg String.data h
  have := hexDecode_hexEncode a
  rw [h', hexDecode_hexEncode] at this
  exact (Option.some.inj this).symm

theorem Marshal_eq (b : Book) :
    Marshal b = .object
      [ ("ID", .string (utf8 b.ID.Hex)), ("Title", .string b.Title),
        ("Authors", marshalStrings b.Authors), ("Genre", marshalStrings b.Genre),
        ("PublishDate", .string b.PublishDate), ("Characters", marshalStrings b.Characters),
        ("Publisher", .object
          [("Name", .string b.Publisher.Name), ("Country", .string b.Publisher.Country)]) ] := by
  rfl

theorem toBSON_eq (b : Book) :
    b.toBSON =
      if b.ID.length = 12 then
        .ok [ ("id", .objectId b.ID), ("title", .str b.Title),
              ("authors", bsonStrings b.Authors), ("genre", bsonStrings b.Genre),
              ("publishdate", .str b.PublishDate), ("characters", bsonStrings b.Characters),
              ("publisher", .doc [("name", .str b.Publisher.Name),
                                  ("country", .str b.Publisher.Country)]) ]
      else .error (objectIdLengthError b.ID.length) := by
  have hf : Book.fields.filter bsonVisible = Book.fields := by decide
  have h1 : b.bsonElem ⟨"ID", "json: \"id\"          bson:\"_id,omitempty\""⟩ =
      if b.ID.length = 12 then .ok [("id", .objectId b.ID)]
      else .error (objectIdLengthError b.ID.length) := rfl
  unfold Book.toBSON
  rw [hf]
  unfold Book.fields
  rw [Book.bsonElems, h1]
  by_cases h : b.ID.length = 12
  · rw [if_pos h, if_pos h]; rfl
  · rw [if_neg h, if_neg h]

theorem Unmarshal_syntaxError (data : GoString) (book : Book) (h : parseJSON data = none) :
    Unmarshal data book = (book, some .syntaxError) := by
  simp [Unmarshal, h]

theorem hasId_iff (id : ObjectId) (d : Doc) :
    hasId id d = true ↔ docId d = some (.objectId id) := by
  unfold hasId
  cases h : docId d with
  | none => simp
  | some v => cases v <;> simp

theorem docId_setField (k : String) (v : BValue) (d : Doc) (hk : k ≠ "_id") :
    docId (setField k v d) = docId d := by
  have hk' : ("_id" == k) = false := by
    simpa using fun h => hk h.symm
  induction d with
  | nil => simp [setField, docId, List.lookup, hk']
  | cons e es ih =>
    obtain ⟨k', v'⟩ := e
    unfold setField
    by_cases h : k' = k
    · subst h
      simp [docId, List.lookup, hk']
    · rw [if_neg h]
      unfold docId at ih ⊢
      simp only [List.lookup]
      rw [ih]

theorem docId_applySet (fields : Doc) (d : Doc) (hk : ∀ kv ∈ fields, kv.1 ≠ "_id") :
    docId (applySet fields d) = docId d := by
  unfold applySet
  induction fields generalizing d with
  | nil => rfl
  | cons kv rest ih =>
    rw [List.foldl_cons, ih _ (fun x hx => hk x (List.mem_cons_of_mem _ hx))]
    exact docId_setField _ _ _ (hk kv (List.mem_cons_self _ _))

theorem altersId_eq_false (fields : Doc) (d : Doc) (hk : ∀ kv ∈ fields, kv.1 ≠ "_id") :
    altersId fields d = false := by
  unfold altersId
  rw [List.any_eq_false]
  intro kv hkv
  have := hk kv hkv
  simp [this]

theorem map_docId_updateFirst (p : Doc → Bool) (f : Doc → Doc) (l : List Doc)
    (hf : ∀ d, docId (f d) = docId d) :
    (updateFirst p f l).map docId = l.map docId := by
  induction l with
  | nil => rfl
  | cons d ds ih =>
    unfold updateFirst
    by_cases h : p d = true
    · simp [h, hf]
    · simp [h, ih]

theorem toBSON_keys (b : Book) (fields : Doc) (h : b.toBSON = .ok fields) :
    ∀ kv ∈ fields, kv.1 ≠ "_id" := by
  rw [toBSON_eq] at h
  by_cases hl : b.ID.length = 12
  · rw [if_pos hl] at h
    injection h with h
    subst h
    intro kv hkv
    simp only [List.mem_cons, List.mem_singleton, List.not_mem_nil, or_false] at hkv
    rcases hkv with h | h | h | h | h | h | h <;> subst h <;> simp
  · rw [if_neg hl] at h
    cases h

theorem find?_hasId_of_mem (id : ObjectId) (l : List Doc) (d : Doc) (hd : d ∈ l)
    (hid : docId d = some (.objectId id)) :
    ∃ x, l.find? (hasId id) = some x := by
  cases h : l.find? (hasId id) with
  | some x => exact ⟨x, rfl⟩
  | none =>
    rw [List.find?_eq_none] at h
    exact absurd ((hasId_iff id d).2 hid) (h d hd)

theorem eraseP_hasId (id : ObjectId) (l : List Doc) (d : Doc) (hd : d ∈ l)
    (hid : docId d = some (.objectId id)) (hnd : (l.map docId).Nodup) :
    ∃ pre post, l = pre ++ d :: post ∧ l.eraseP (hasId id) = pre ++ post ∧
      ∀ x ∈ pre ++ post, docId x ≠ some (.objectId id) := by
  obtain ⟨a, pre, post, _, hpa, hl, he⟩ :=
    List.exists_of_eraseP hd ((hasId_iff id d).2 hid)
  have ha : a ∈ l := by rw [hl]; simp
  have had : a = d :=
    List.inj_on_of_nodup_map hnd ha hd (((hasId_iff id a).1 hpa).trans hid.symm)
  subst had
  refine ⟨pre, post, hl, he, ?_⟩
  intro x hx hxid
  rw [hl, List.map_append, List.map_cons] at hnd
  have hnd' := (List.nodup_middle.1 hnd)
  rw [List.nodup_cons] at hnd'
  apply hnd'.1
  rw [← List.map_append, hid, ← hxid]
  exact List.mem_map_of_mem _ hx

theorem inClass_alnum (c : Char) :
    inClass [('a', 'z'), ('A', 'Z'), ('0', '9')] c = c.isAlphanum := by
  simp only [inClass, List.any_cons, List.any_nil, Bool.or_false, Char.isAlphanum, Char.isAlpha,
    Char.isUpper, Char.isLower, Char.isDigit]
  have h1 : decide ('a' ≤ c) = decide (c.val ≥ 97) := rfl
  have h2 : decide (c ≤ 'z') = decide (c.val ≤ 122) := rfl
  have h3 : decide ('A' ≤ c) = decide (c.val ≥ 65) := rfl
  have h4 : decide (c ≤ 'Z') = decide (c.val ≤ 90) := rfl
  have h5 : decide ('0' ≤ c) = decide (c.val ≥ 48) := rfl
  have h6 : decide (c ≤ '9') = decide (c.val ≤ 57) := rfl
  rw [h1, h2, h3, h4, h5, h6]
  cases decide (c.val ≥ 97) <;> cases decide (c.val ≤ 122) <;> cases decide (c.val ≥ 65) <;>
    cases decide (c.val ≤ 90) <;> rfl

theorem compile_idTemplate :
    compileTemplate "/api/books/\x7bid:[a-zA-Z0-9]*\x7d".toList =
      some { literal := "/api/books/".toList,
             var := some ("id", [('a', 'z'), ('A', 'Z'), ('0', '9')]) } := by
  rfl

theorem compile_booksTemplate :
    compileTemplate "/api/books".toList = some { literal := "/api/books".toList, var := none } := by
  rfl


theorem match_idRoute (m : String) (h : Handler) (method path : String)
    (vars : List (String × String)) :
    Route.match? { path := "/api/books/\x7bid:[a-zA-Z0-9]*\x7d", methods := [m], handler := h }
        method path = some vars ↔
      method = m ∧ ∃ s : String, path = "/api/books/" ++ s ∧
        s.toList.all Char.isAlphanum = true ∧ vars = [("id", s)] := by
  have hcls : inClass [('a', 'z'), ('A', 'Z'), ('0', '9')] = Char.isAlphanum :=
    funext inClass_alnum
  unfold Route.match?
  simp only [compile_idTemplate, matchPath, hcls]
  by_cases hm : method = m
  · subst hm
    simp only [List.contains_cons, beq_self_eq_true, Bool.true_or, if_true, true_and]
    constructor
    · intro hv
      split at hv
      · rename_i hc
        obtain ⟨hp, ha⟩ := hc
        refine ⟨String.mk (path.toList.drop "/api/books/".toList.length), ?_, ha, ?_⟩
        · apply String.ext
          rw [String.data_append]
          have := List.prefix_iff_eq_append.1 (List.isPrefixOf_iff_prefix.1 hp)
          exact this.symm
        · exact (Option.some.inj hv).symm
      · cases hv
    · rintro ⟨s, hp, ha, hv⟩
      subst hp hv
      have hd : ("/api/books/" ++ s).toList = "/api/books/".toList ++ s.toList :=
        String.data_append _ _
      rw [hd]
      have hpre : ("/api/books/".toList).isPrefixOf ("/api/books/".toList ++ s.toList) = true :=
        List.isPrefixOf_iff_prefix.2 (List.prefix_append _ _)
      rw [if_pos ⟨hpre, by simpa using ha⟩]
      simp
  · have : ([m].contains method) = false := by
      simp [hm]
    simp [this, hm]

theorem match_booksRoute (method path : String) (vars : List (String × String)) :
    Route.match? { path := "/api/books", methods := ["POST"], handler := .PostBook }
        method path = some vars ↔
      method = "POST" ∧ path = "/api/books" ∧ vars = [] := by
  unfold Route.match?
  simp only [compile_booksTemplate, matchPath]
  by_cases hm : method = "POST"
  · subst hm
    simp only [List.contains_cons, beq_self_eq_true, Bool.true_or, if_true, true_and]
    constructor
    · intro hv
      split at hv
      · rename_i hc
        exact ⟨String.ext hc, (Option.some.inj hv).symm⟩
      · cases hv
    · rintro ⟨hp, hv⟩
      subst hp hv
      rfl
  · have : (["POST"].contains method) = false := by
      simp [hm]
    simp [this, hm]


theorem match_none_of_method (r : Route) (method path : String)
    (h : r.methods.contains method = false) : r.match? method path = none := by
  unfold Route.match?
  rw [h]
  rfl

/-- An update whose payload leaves `Book.ID` at a length other than twelve, as
every payload without an identifier does, is refused by the driver's encoder:
the handler answers with the encoder's message and the database is not asked. -/
theorem UpdateBook_encoder_error {σ : Type} (B : Backend σ) (db : σ) (id : String)
    (body : GoString) (oid : ObjectId) (hid : ObjectIdHex id = .ok oid)
    (hlen : (Unmarshal body Book.zero).1.ID.length ≠ 12) :
    ∃ r, UpdateBook B db id body = .ok r ∧
      r.w.body = [.text (objectIdLengthError (Unmarshal body Book.zero).1.ID.length)] ∧
      r.db = db := by
  unfold UpdateBook
  simp only [hid, Update]
  rw [toBSON_eq, if_neg hlen]
  exact ⟨_, rfl, rfl, rfl⟩

/-! ## The claims -/

/-- C1: create then read.  The scenario's payload is posted to the empty
collection with the generated identifier `5f1a…b4`: the insertion succeeds and
the record written back carries that identifier.  The document stored has it
under the key `id`, and under `_id` the identifier the server assigned.
`GetBook` with the returned identifier then answers `not found`. -/
theorem PostBook_then_GetBook_not_found :
    ∃ r, PostBook Mongo.backend emptyBooks duneBody sampleId = .ok r ∧
      r.w.body = [.json (Marshal (postedBook duneBody sampleId))] ∧
      (Marshal (postedBook duneBody sampleId)).member "ID"
        = some (.string "5f1a2b3c4d5e6f708192a3b4") ∧
      (Marshal (postedBook duneBody sampleId)).member "Title" = some (.string "Dune") ∧
      r.db.docs = [duneDoc] ∧
      ∃ r', GetBook Mongo.backend r.db "5f1a2b3c4d5e6f708192a3b4" = .ok r' ∧
        r'.w.body = [.text "not found"] :=
  ⟨_, rfl, rfl, rfl, rfl, rfl, _, rfl, rfl⟩

/-- C3: `PostBook` discards the client's identifier.  For every backend,
state, request body and generated identifier, the record `PostBook` hands to
`Insert` is the decoded payload with `ID` set to the generated identifier; the
state it leaves is the one that insertion leaves, and for a generated
identifier of twelve bytes that insertion is the backend's, of the document
whose `id` element is the generated identifier; the response is the
insertion's error, or else the same record, whose `ID` member is the
generated identifier in hexadecimal.  Hence when the generated identifier is
non-empty and differs from the payload's, so does the identifier inserted and
returned. -/
theorem PostBook_discards_client_id {σ : Type} (B : Backend σ) (db : σ) (body : GoString)
    (newId : ObjectId) :
    ∃ r, PostBook B db body newId = .ok r ∧
      (postedBook body newId).ID = newId ∧
      r.db = (Insert B db (postedBook body newId)).2 ∧
      (newId.length = 12 →
        Insert B db (postedBook body newId) = B.insert db
          [ ("id", .objectId newId), ("title", .str (postedBook body newId).Title),
            ("authors", bsonStrings (postedBook body newId).Authors),
            ("genre", bsonStrings (postedBook body newId).Genre),
            ("publishdate", .str (postedBook body newId).PublishDate),
            ("characters", bsonStrings (postedBook body newId).Characters),
            ("publisher", .doc [("name", .str (postedBook body newId).Publisher.Name),
                                ("country", .str (postedBook body newId).Publisher.Country)]) ]) ∧
      (∀ e, (Insert B db (postedBook body newId)).1 = some e → r.w.body = [.text e]) ∧
      ((Insert B db (postedBook body newId)).1 = none →
        r.w.body = [.json (Marshal (postedBook body newId))]) ∧
      (Marshal (postedBook body newId)).member "ID" = some (.string (utf8 newId.Hex)) ∧
      (newId ≠ [] → newId ≠ (Unmarshal body Book.zero).1.ID →
        (postedBook body newId).ID ≠ [] ∧
        (postedBook body newId).ID ≠ (Unmarshal body Book.zero).1.ID ∧
        newId.Hex ≠ (Unmarshal body Book.zero).1.ID.Hex) := by
  have hhex : newId ≠ [] → newId ≠ (Unmarshal body Book.zero).1.ID →
      (postedBook body newId).ID ≠ [] ∧
      (postedBook body newId).ID ≠ (Unmarshal body Book.zero).1.ID ∧
      newId.Hex ≠ (Unmarshal body Book.zero).1.ID.Hex :=
    fun hne hdiff => ⟨hne, hdiff, fun h => hdiff (Hex_injective _ _ h)⟩
  have hins : newId.length = 12 →
      Insert B db (postedBook body newId) = B.insert db
        [ ("id", .objectId newId), ("title", .str (postedBook body newId).Title),
          ("authors", bsonStrings (postedBook body newId).Authors),
          ("genre", bsonStrings (postedBook body newId).Genre),
          ("publishdate", .str (postedBook body newId).PublishDate),
          ("characters", bsonStrings (postedBook body newId).Characters),
          ("publisher", .doc [("name", .str (postedBook body newId).Publisher.Name),
                              ("country", .str (postedBook body newId).Publisher.Country)]) ] := by
    intro hl
    have hl' : (postedBook body newId).ID.length = 12 := hl
    unfold Insert
    rw [toBSON_eq, if_pos hl']
    rfl
  have hpost : PostBook B db body newId =
      match Insert B db (postedBook body newId) with
      | (some err, db') => .ok { w := ResponseWriter.new.Write (.text err), db := db' }
      | (none, db') =>
        .ok { w := (ResponseWriter.new.Set "Content-Type" "application/json").Write
                (.json (Marshal (postedBook body newId))), db := db' } := rfl
  rw [hpost]
  rcases hI : Insert B db (postedBook body newId) with ⟨err, db'⟩
  rw [hI] at hins
  cases err with
  | some e =>
    refine ⟨_, rfl, rfl, rfl, hins, ?_, ?_, rfl, hhex⟩
    · intro e' he'
      simp only [Option.some.injEq] at he'
      subst he'
      rfl
    · intro hn
      simp at hn
  | none =>
    refine ⟨_, rfl, rfl, rfl, hins, ?_, fun _ => rfl, rfl, hhex⟩
    intro e' he'
    simp at he'

/-- Witness for C3: a payload that carries the identifier `aabb…55`, posted to
the empty collection with the generated identifier `5f1a…b4`.  The insertion
succeeds; the document stored and the record returned carry the generated
identifier, not the payload's. -/
theorem PostBook_discards_client_id_witness :
    (Unmarshal duneBodyWithId Book.zero).1.ID = otherId ∧
    ∃ r, PostBook Mongo.backend emptyBooks duneBodyWithId sampleId = .ok r ∧
      r.db.docs =
        [[ ("_id", .objectId serverId), ("id", .objectId sampleId), ("title", .str "Dune"),
           ("authors", .arr []), ("genre", .arr []), ("publishdate", .str ""),
           ("characters", .arr []),
           ("publisher", .doc [("name", .str ""), ("country", .str "")]) ]] ∧
      r.w.body = [.json (Marshal (postedBook duneBodyWithId sampleId))] ∧
      (Marshal (postedBook duneBodyWithId sampleId)).member "ID"
        = some (.string "5f1a2b3c4d5e6f708192a3b4") ∧
      sampleId.Hex ≠ otherId.Hex := by
  obtain ⟨r, h1, _, hdb, _, _, hok, hid, hne⟩ :=
    PostBook_discards_client_id Mongo.backend emptyBooks duneBodyWithId sampleId
  refine ⟨by decide, r, h1, ?_, hok rfl, hid, (hne (by decide) (by decide)).2.2⟩
  rw [hdb]
  rfl

/-- C4: `GetBook` on a malformed identifier.  For every identifier, either it
is the hexadecimal form of twelve bytes or the handler does not complete:
`bson.ObjectIdHex` panics before any call on the collection and before any
body is written.  The router lets such identifiers through: `zzz` and the
empty one reach `GetBook`, and both make it panic. -/
theorem GetBook_panics_on_malformed_id {σ : Type} (B : Backend σ) (db : σ) (id : String) :
    (IsObjectIdHex id = true ∨ GetBook B db id = .error (.invalidObjectIdHex id)) ∧
    dispatch "GET" "/api/books/zzz" = some (.GetBook, [("id", "zzz")]) ∧
    GetBook B db "zzz" = .error (.invalidObjectIdHex "zzz") ∧
    dispatch "GET" "/api/books/" = some (.GetBook, [("id", "")]) ∧
    GetBook B db "" = .error (.invalidObjectIdHex "") ∧
    GetBook B db "5f1a-2b3c" = .error (.invalidObjectIdHex "5f1a-2b3c") := by
  refine ⟨?_, by decide, rfl, by decide, rfl, rfl⟩
  unfold IsObjectIdHex GetBook ObjectIdHex
  cases hexDecode id.toList with
  | none => exact Or.inr rfl
  | some d =>
    by_cases h : d.length = 12
    · exact Or.inl (by simp [h])
    · exact Or.inr (by simp [h])

/-- C5: delete then read.  In a well-formed collection, for every stored
document `d` whose `_id` is the twelve-byte identifier `i`, `DeleteBook` on
the hexadecimal form of `i` succeeds; afterwards the collection is the old one
with exactly `d` taken out, every other document in place and unchanged; no
document has the identifier `i`; and `GetBook` on the same identifier answers
with the text `not found`, not with a record. -/
theorem DeleteBook_then_GetBook (m : Mongo) (hwf : m.WellFormed) (i : ObjectId)
    (hlen : i.length = 12) (d : Doc) (hd : d ∈ m.docs)
    (hid : docId d = some (.objectId i)) :
    ∃ r, DeleteBook Mongo.backend m i.Hex = .ok r ∧
      r.w.body = [.text "Delete Succesfully"] ∧
      (∃ pre post, m.docs = pre ++ d :: post ∧ r.db.docs = pre ++ post) ∧
      (∀ x ∈ r.db.docs, docId x ≠ some (.objectId i)) ∧
      ∃ r', GetBook Mongo.backend r.db i.Hex = .ok r' ∧
        r'.w.status = 200 ∧ r'.w.body = [.text "not found"] := by
  obtain ⟨x, hx⟩ := find?_hasId_of_mem i m.docs d hd hid
  obtain ⟨pre, post, hl, he, hno⟩ := eraseP_hasId i m.docs d hd hid hwf.2
  have hdel : DeleteBook Mongo.backend m i.Hex = .ok
      { w := (ResponseWriter.new.Set "Content-Type" "text").Write (.text "Delete Succesfully"),
        db := { m with docs := m.docs.eraseP (hasId i) } } := by
    unfold DeleteBook
    simp only [ObjectIdHex_Hex i hlen, Remove, Mongo.backend, Mongo.remove, hx]
  refine ⟨_, hdel, rfl, ⟨pre, post, hl, he⟩, ?_, ?_⟩
  · intro y hy
    exact hno y (by rw [← he]; exact hy)
  · have hnone : (m.docs.eraseP (hasId i)).find? (hasId i) = none := by
      rw [List.find?_eq_none]
      intro y hy hyi
      exact hno y (by rw [← he]; exact hy) ((hasId_iff i y).1 hyi)
    refine ⟨{ w := (ResponseWriter.new.WriteHeader StatusOK).Write (.text ErrNotFound),
              db := { m with docs := m.docs.eraseP (hasId i) } }, ?_, rfl, rfl⟩
    unfold GetBook
    simp only [ObjectIdHex_Hex i hlen, FindOne, Mongo.backend, Mongo.findOne, hnone]

/-- Witness for C5: the scenario's record deleted from the collection that
holds it, then read. -/
theorem DeleteBook_then_GetBook_witness :
    ∃ r, DeleteBook Mongo.backend duneBooks "600000000000000000000001" = .ok r ∧
      r.w.body = [.text "Delete Succesfully"] ∧
      (∃ pre post, duneBooks.docs = pre ++ duneDoc :: post ∧ r.db.docs = pre ++ post) ∧
      (∀ x ∈ r.db.docs, docId x ≠ some (.objectId serverId)) ∧
      ∃ r', GetBook Mongo.backend r.db "600000000000000000000001" = .ok r' ∧
        r'.w.status = 200 ∧ r'.w.body = [.text "not found"] :=
  DeleteBook_then_GetBook duneBooks
    ⟨by simp [duneBooks, duneDoc, docId], by simp [duneBooks]⟩
    serverId rfl duneDoc (by simp [duneBooks]) rfl

/-- C6: the member names `json.Marshal` writes for a `Book`.  For every book
they are the Go field names `ID`, `Title`, `Authors`, `Genre`, `PublishDate`,
`Characters`, `Publisher`, and the nested publisher object has the two members
`Name` and `Country`: not the lower-case labels, and no `website` member. -/
theorem Marshal_member_names (b : Book) :
    (Marshal b).keys =
      ["ID", "Title", "Authors", "Genre", "PublishDate", "Characters", "Publisher"] ∧
    ((Marshal b).member "Publisher").map JValue.keys = some ["Name", "Country"] ∧
    (Marshal b).keys ≠
      ["id", "title", "authors", "genre", "publishdate", "characters", "publisher"] ∧
    ((Marshal b).member "Publisher").map JValue.keys ≠ some ["name", "country", "website"] := by
  have hk : (Marshal b).keys =
      ["ID", "Title", "Authors", "Genre", "PublishDate", "Characters", "Publisher"] := by
    rw [Marshal_eq]; rfl
  have hp : ((Marshal b).member "Publisher").map JValue.keys = some ["Name", "Country"] := by
    rw [Marshal_eq]; rfl
  rw [hk, hp]
  exact ⟨rfl, rfl, by decide, by decide⟩

/-- C7: failures are reported as status 200 with the error text, after one
call.  For each of the four handlers, every backend and every error `e` that
the handler's call on the collection returns, the handler completes with
status 200 and a body that is exactly `e`, and the state it leaves is the
state that one call leaves: one request to the backend, or none when the
driver's encoder refused the record before anything was sent. -/
theorem failures_reported_verbatim {σ : Type} (B : Backend σ) (db : σ) (id : String)
    (body : GoString) (newId oid : ObjectId) (e : String) :
    (ObjectIdHex id = .ok oid → (B.findOne db oid).1 = .error e →
      ∃ r, GetBook B db id = .ok r ∧ ReportsError r.w e ∧ r.db = (B.findOne db oid).2) ∧
    ((Insert B db (postedBook body newId)).1 = some e →
      ∃ r, PostBook B db body newId = .ok r ∧ ReportsError r.w e ∧
        (∀ d, (postedBook body newId).toBSON = .ok d → r.db = (B.insert db d).2) ∧
        (∀ msg, (postedBook body newId).toBSON = .error msg → r.db = db)) ∧
    (ObjectIdHex id = .ok oid → (Update B db oid (Unmarshal body Book.zero).1).1 = some e →
      ∃ r, UpdateBook B db id body = .ok r ∧ ReportsError r.w e ∧
        (∀ d, (Unmarshal body Book.zero).1.toBSON = .ok d → r.db = (B.updateSet db oid d).2) ∧
        (∀ msg, (Unmarshal body Book.zero).1.toBSON = .error msg → r.db = db)) ∧
    (ObjectIdHex id = .ok oid → (B.remove db oid).1 = some e →
      ∃ r, DeleteBook B db id = .ok r ∧ ReportsError r.w e ∧ r.db = (B.remove db oid).2) := by
  refine ⟨?_, ?_, ?_, ?_⟩
  · intro hid hf
    unfold GetBook FindOne
    simp only [hid]
    rcases hF : B.findOne db oid with ⟨res, db'⟩
    rw [hF] at hf
    simp only at hf
    subst hf
    exact ⟨_, rfl, ⟨rfl, rfl, rfl⟩, rfl⟩
  · intro hi
    have hpost : PostBook B db body newId =
        match Insert B db (postedBook body newId) with
        | (some err, db') => .ok { w := ResponseWriter.new.Write (.text err), db := db' }
        | (none, db') =>
          .ok { w := (ResponseWriter.new.Set "Content-Type" "application/json").Write
                  (.json (Marshal (postedBook body newId))), db := db' } := rfl
    rw [hpost]
    unfold Insert at hi ⊢
    cases hb : (postedBook body newId).toBSON with
    | error msg =>
      rw [hb] at hi
      simp only [Option.some.injEq] at hi
      subst hi
      exact ⟨_, rfl, ⟨rfl, rfl, rfl⟩, fun d hd => (by cases hd), fun _ _ => rfl⟩
    | ok d =>
      rw [hb] at hi
      simp only at hi ⊢
      rcases hI : B.insert db d with ⟨err, db'⟩
      rw [hI] at hi
      simp only at hi
      subst hi
      refine ⟨_, rfl, ⟨rfl, rfl, rfl⟩, ?_, fun msg hm => (by cases hm)⟩
      intro d' hd'
      cases hd'
      rw [hI]
  · intro hid hu
    unfold UpdateBook
    simp only [hid]
    unfold Update at hu ⊢
    cases hb : (Unmarshal body Book.zero).1.toBSON with
    | error msg =>
      rw [hb] at hu
      simp only [Option.some.injEq] at hu
      subst hu
      exact ⟨_, rfl, ⟨rfl, rfl, rfl⟩, fun d hd => (by cases hd), fun _ _ => rfl⟩
    | ok d =>
      rw [hb] at hu
      simp only at hu ⊢
      rcases hU : B.updateSet db oid d with ⟨err, db'⟩
      rw [hU] at hu
      simp only at hu
      subst hu
      refine ⟨_, rfl, ⟨rfl, rfl, rfl⟩, ?_, fun msg hm => (by cases hm)⟩
      intro d' hd'
      cases hd'
      rw [hU]
  · intro hid hr
    unfold DeleteBook Remove
    simp only [hid]
    rcases hR : B.remove db oid with ⟨err, db'⟩
    rw [hR] at hr
    simp only at hr
    subst hr
    exact ⟨_, rfl, ⟨rfl, rfl, rfl⟩, rfl⟩

/-- Witness for C7: the four handlers against a database that cannot be
reached and that counts the requests it gets, each on a well-formed request:
the error text comes back with status 200 and the count goes from 0 to 1. -/
theorem failures_reported_verbatim_witness :
    (∃ r, GetBook unreachable 0 "5f1a2b3c4d5e6f708192a3b4" = .ok r ∧
      ReportsError r.w "no reachable servers" ∧ r.db = 1) ∧
    (∃ r, PostBook unreachable 0 duneBody sampleId = .ok r ∧
      ReportsError r.w "no reachable servers" ∧ r.db = 1) ∧
    (∃ r, UpdateBook unreachable 0 "5f1a2b3c4d5e6f708192a3b4" messiahBody = .ok r ∧
      ReportsError r.w "no reachable servers" ∧ r.db = 1) ∧
    (∃ r, DeleteBook unreachable 0 "5f1a2b3c4d5e6f708192a3b4" = .ok r ∧
      ReportsError r.w "no reachable servers" ∧ r.db = 1) := by
  obtain ⟨r1, h1, e1, d1⟩ :=
    (failures_reported_verbatim unreachable 0 "5f1a2b3c4d5e6f708192a3b4" duneBody
      sampleId sampleId "no reachable servers").1 rfl rfl
  obtain ⟨r2, h2, e2, d2, _⟩ :=
    (failures_reported_verbatim unreachable 0 "5f1a2b3c4d5e6f708192a3b4" duneBody
      sampleId sampleId "no reachable servers").2.1 rfl
  obtain ⟨r3, h3, e3, d3, _⟩ :=
    (failures_reported_verbatim unreachable 0 "5f1a2b3c4d5e6f708192a3b4" messiahBody
      sampleId sampleId "no reachable servers").2.2.1 rfl rfl
  obtain ⟨r4, h4, e4, d4⟩ :=
    (failures_reported_verbatim unreachable 0 "5f1a2b3c4d5e6f708192a3b4" duneBody
      sampleId sampleId "no reachable servers").2.2.2 rfl rfl
  exact ⟨⟨r1, h1, e1, d1⟩, ⟨r2, h2, e2, d2 _ rfl⟩, ⟨r3, h3, e3, d3 _ rfl⟩, ⟨r4, h4, e4, d4⟩⟩

/-- C8: the identifier under update.  On the collection that holds the
scenario's record, `GetBook` shows the record with the identifier `5f1a…b4`
that `PostBook` gave it.  `UpdateBook` on that record with a payload that
carries the identifier `aabb…55` succeeds and puts the payload's identifier
in the place of the record's: the stored `id` element is now `aabb…55`, and
`GetBook` shows the record with that identifier. -/
theorem UpdateBook_overwrites_id :
    (∃ r, GetBook Mongo.backend duneBooks "600000000000000000000001" = .ok r ∧
      r.w.body = [.json (Marshal (Book.fromBSON duneDoc))] ∧
      (Marshal (Book.fromBSON duneDoc)).member "ID"
        = some (.string "5f1a2b3c4d5e6f708192a3b4")) ∧
    ∃ r, UpdateBook Mongo.backend duneBooks "600000000000000000000001" messiahBody = .ok r ∧
      r.w.body = [.text "Update succesfully"] ∧
      r.db.docs = [messiahDoc] ∧
      ∃ r', GetBook Mongo.backend r.db "600000000000000000000001" = .ok r' ∧
        r'.w.body = [.json (Marshal (Book.fromBSON messiahDoc))] ∧
        (Marshal (Book.fromBSON messiahDoc)).member "ID"
          = some (.string "aabbccddeeff001122334455") :=
  ⟨⟨_, rfl, rfl, rfl⟩, _, rfl, rfl, rfl, _, rfl, rfl, rfl⟩

/-- C9: routing by method and path.  The router runs a handler on a request
exactly in these cases: method `POST` and path `/api/books`, handler
`PostBook`, no path variable; or a path `/api/books/s` with `s` made only of
the characters `a`-`z`, `A`-`Z`, `0`-`9`, and method `GET`, `PUT` or `DELETE`,
handler `GetBook`, `UpdateBook` or `DeleteBook` in that order, with the path
variable `id` bound to `s`.  Every other pair of method and path reaches no
handler. -/
theorem dispatch_iff (method path : String) (h : Handler) (vars : List (String × String)) :
    dispatch method path = some (h, vars) ↔
      (method = "POST" ∧ path = "/api/books" ∧ h = .PostBook ∧ vars = []) ∨
      (∃ s : String, path = "/api/books/" ++ s ∧ s.toList.all Char.isAlphanum = true ∧
        vars = [("id", s)] ∧
        ((method = "GET" ∧ h = .GetBook) ∨ (method = "PUT" ∧ h = .UpdateBook) ∨
          (method = "DELETE" ∧ h = .DeleteBook))) := by
  constructor
  · intro hd
    unfold dispatch routes at hd
    simp only [matchRoutes] at hd
    split at hd
    · rename_i v hv
      obtain ⟨hm, s, hp, ha, hvs⟩ := (match_idRoute _ _ _ _ _).1 hv
      simp only [Option.some.injEq, Prod.mk.injEq] at hd
      exact Or.inr ⟨s, hp, ha, hd.2 ▸ hvs, Or.inl ⟨hm, hd.1.symm⟩⟩
    · split at hd
      · rename_i v hv
        obtain ⟨hm, hp, hvs⟩ := (match_booksRoute _ _ _).1 hv
        simp only [Option.some.injEq, Prod.mk.injEq] at hd
        exact Or.inl ⟨hm, hp, hd.1.symm, hd.2 ▸ hvs⟩
      · split at hd
        · rename_i v hv
          obtain ⟨hm, s, hp, ha, hvs⟩ := (match_idRoute _ _ _ _ _).1 hv
          simp only [Option.some.injEq, Prod.mk.injEq] at hd
          exact Or.inr ⟨s, hp, ha, hd.2 ▸ hvs, Or.inr (Or.inl ⟨hm, hd.1.symm⟩)⟩
        · split at hd
          · rename_i v hv
            obtain ⟨hm, s, hp, ha, hvs⟩ := (match_idRoute _ _ _ _ _).1 hv
            simp only [Option.some.injEq, Prod.mk.injEq] at hd
            exact Or.inr ⟨s, hp, ha, hd.2 ▸ hvs, Or.inr (Or.inr ⟨hm, hd.1.symm⟩)⟩
          · cases hd
  · rintro (⟨hm, hp, hh, hv⟩ | ⟨s, hp, ha, hv, (⟨hm, hh⟩ | ⟨hm, hh⟩ | ⟨hm, hh⟩)⟩)
    · subst hm hp hh hv
      rfl
    · subst hm hh hv
      unfold dispatch routes
      simp only [matchRoutes]
      rw [(match_idRoute _ _ _ _ _).2 ⟨rfl, s, hp, ha, rfl⟩]
    · subst hm hh hv
      unfold dispatch routes
      simp only [matchRoutes]
      rw [match_none_of_method _ "PUT" path (by decide),
        match_none_of_method _ "PUT" path (by decide),
        (match_idRoute _ _ _ _ _).2 ⟨rfl, s, hp, ha, rfl⟩]
    · subst hm hh hv
      unfold dispatch routes
      simp only [matchRoutes]
      rw [match_none_of_method _ "DELETE" path (by decide),
        match_none_of_method _ "DELETE" path (by decide),
        match_none_of_method _ "DELETE" path (by decide),
        (match_idRoute _ _ _ _ _).2 ⟨rfl, s, hp, ha, rfl⟩]

/-- C10: `PostBook` ignores a malformed body.  For every request body that is
not syntactically valid JSON, `json.Unmarshal` reports a syntax error that the
handler drops; the record handed to `Insert` is the zero book carrying the
generated identifier; the state left is the one that insertion leaves, and
for a generated identifier of twelve bytes that insertion is the backend's,
of the document with the generated identifier and every other field at its
zero value; the response is the insertion's error if it fails and that record
if it succeeds; and the whole run equals the run on the body `{}` with the
same generated identifier. -/
theorem PostBook_ignores_malformed_body {σ : Type} (B : Backend σ) (db : σ)
    (body : GoString) (newId : ObjectId) (h : parseJSON body = none) :
    Unmarshal body Book.zero = (Book.zero, some .syntaxError) ∧
    postedBook body newId = { Book.zero with ID := newId } ∧
    PostBook B db body newId = PostBook B db "\x7b\x7d" newId ∧
    ∃ r, PostBook B db body newId = .ok r ∧
      r.db = (Insert B db { Book.zero with ID := newId }).2 ∧
      (newId.length = 12 →
        Insert B db { Book.zero with ID := newId } = B.insert db
          [ ("id", .objectId newId), ("title", .str ""), ("authors", .arr []),
            ("genre", .arr []), ("publishdate", .str ""), ("characters", .arr []),
            ("publisher", .doc [("name", .str ""), ("country", .str "")]) ]) ∧
      (∀ e, (Insert B db { Book.zero with ID := newId }).1 = some e → r.w.body = [.text e]) ∧
      ((Insert B db { Book.zero with ID := newId }).1 = none →
        r.w.body = [.json (Marshal { Book.zero with ID := newId })]) := by
  have hu := Unmarshal_syntaxError body Book.zero h
  have he : Unmarshal "\x7b\x7d" Book.zero = (Book.zero, none) := by decide
  have hins : newId.length = 12 →
      Insert B db { Book.zero with ID := newId } = B.insert db
        [ ("id", .objectId newId), ("title", .str ""), ("authors", .arr []),
          ("genre", .arr []), ("publishdate", .str ""), ("characters", .arr []),
          ("publisher", .doc [("name", .str ""), ("country", .str "")]) ] := by
    intro hl
    have hl' : ({ Book.zero with ID := newId } : Book).ID.length = 12 := hl
    unfold Insert
    rw [toBSON_eq, if_pos hl']
    rfl
  refine ⟨hu, by rw [postedBook, hu], by unfold PostBook; rw [hu, he], ?_⟩
  unfold PostBook
  rw [hu]
  simp only []
  rcases hI : Insert B db { Book.zero with ID := newId } with ⟨err, db'⟩
  rw [hI] at hins
  cases err with
  | some e =>
    refine ⟨_, rfl, rfl, hins, ?_, ?_⟩
    · intro e' he'
      simp only [Option.some.injEq] at he'
      subst he'
      rfl
    · intro hn
      simp at hn
  | none =>
    refine ⟨_, rfl, rfl, hins, ?_, ?_⟩
    · intro e' he'
      simp at he'
    · intro _
      rfl

/-- Witness for C10: a body cut off in the middle of a string, posted to the
empty collection: the document stored has the generated identifier and empty
fields, as for the body `{}`. -/
theorem PostBook_ignores_malformed_body_witness :
    parseJSON brokenBody = none ∧
    PostBook Mongo.backend emptyBooks brokenBody sampleId =
      PostBook Mongo.backend emptyBooks "\x7b\x7d" sampleId ∧
    postedBook brokenBody sampleId = { Book.zero with ID := sampleId } ∧
    ∃ r, PostBook Mongo.backend emptyBooks brokenBody sampleId = .ok r ∧
      r.db.docs =
        [[ ("_id", .objectId serverId), ("id", .objectId sampleId), ("title", .str ""),
           ("authors", .arr []), ("genre", .arr []), ("publishdate", .str ""),
           ("characters", .arr []),
           ("publisher", .doc [("name", .str ""), ("country", .str "")]) ]] ∧
      r.w.body = [.json (Marshal { Book.zero with ID := sampleId })] := by
  obtain ⟨_, h2, h3, r, hr, hdb, _, _, hok⟩ :=
    PostBook_ignores_malformed_body Mongo.backend emptyBooks brokenBody sampleId rfl
  refine ⟨rfl, h3, h2, r, hr, ?_, hok rfl⟩
  rw [hdb]
  rfl

end MongoGorilla
